import Mathlib

/-!
Verification development for the HistoricalFinanceSimulator retirement engine.

The definitions below are a shallow embedding of the JavaScript core
(`runRetirementMonthly`, `runRetirementSuccessByStartYear`,
`computeWithdrawal`, `buildReturns`, `findMonthIndex`, `median`, `clamp`)
from the server copy of the engine (src/unnamed/part_001).  Modelling
conventions:

* JavaScript numbers are modelled by exact rationals `ℚ`.  A value that can
  be a non-finite JS number (`NaN`/`Infinity`, e.g. a parsed CSV close, or a
  blank optional input) is modelled by `Option ℚ`, `none` meaning
  "not a finite number"; `Number.isFinite x` becomes `x.isSome`.
* Month strings "YYYY-MM" are modelled by a `Month` structure carrying the
  two parsed fields; `Number(str.slice(0,4))` / `Number(str.slice(5,7))`
  become the field projections.
* The JS `for` loops are modelled by fuel-indexed structural recursion
  (`retireLoop`, `sweepLoop`, `sweepOuter`); `break` is modelled by
  returning the current state.
* `throw` is modelled by `Except SimError`; the error payloads mirror the
  distinct JS error messages.
* Mutation of `guardrailsState.currentRate` is modelled by threading an
  `Option ℚ` (it is initialised to JS `null`, i.e. `none`); where JS
  arithmetic would coerce a `null` rate to `0`, the model uses `Option.getD 0`.
* `Math.pow(1 + a, 1/12)` in `monthlyInflationRateFromAnnualPct` is a real
  (irrational) power, so that helper is modelled over `ℝ`; the simulator
  takes the resulting monthly rate as an explicit parameter `monthlyInfl`
  (the source computes it once before the loop and only ever multiplies by
  `1 + monthlyInfl`).
* The fields `bamTrace` (post-market, pre-withdrawal balances) on the
  retirement loop state and `trace` (post-withdrawal, clamped balances) on
  the sweep inner loop state are ghost fields used only to state theorems;
  no computed output reads them.
-/

set_option maxRecDepth 400000

namespace HistFin

/-- Parsed "YYYY-MM" month string: `y` is the YYYY part, `m` the MM part. -/
structure Month where
  y : Int
  m : Int
deriving DecidableEq, Repr

/-- One entry of the monthly price series; `close` is `none` when
`Number(m.close)` would not be finite. -/
structure PricePoint where
  month : Month
  close : Option ℚ
deriving DecidableEq, Repr

/-- Default price point used for (provably in-range) list indexing. -/
def dfltPt : PricePoint := ⟨⟨0, 0⟩, none⟩

/-- JS `monthToIndex`: year*12 + (month-1), `null` when the month part is
outside 1..12 (the year and month parts of a well-formed "YYYY-MM" string
always parse to finite numbers). -/
def monthToIndex (mo : Month) : Option Int :=
  if 1 ≤ mo.m ∧ mo.m ≤ 12 then some (mo.y * 12 + (mo.m - 1)) else none

/-- JS `Math.max` on two finite numbers (spelled out so that it evaluates
inside the kernel, which the lattice `max` on `ℚ` does not). -/
def maxQ (a b : ℚ) : ℚ := if a ≤ b then b else a

/-- JS `Math.min` on two finite numbers. -/
def minQ (a b : ℚ) : ℚ := if a ≤ b then a else b

/-- JS `clamp(n, lo, hi) = Math.max(lo, Math.min(hi, n))`. -/
def clamp (n lo hi : ℚ) : ℚ := maxQ lo (minQ hi n)

/-- Ascending insertion used to model `Array.prototype.sort((a,b) => a-b)`;
for a totally ordered list of rationals the sorted list is unique, so this
structural sort has exactly the behaviour of the JS sort call in `median`. -/
def insertAsc (x : ℚ) : List ℚ → List ℚ
  | [] => [x]
  | y :: t => if x ≤ y then x :: y :: t else y :: insertAsc x t

/-- Sort a list of rationals ascending (see `insertAsc`). -/
def sortAsc (l : List ℚ) : List ℚ := l.foldr insertAsc []

/-- JS `median`: `null` on an empty list, middle element for odd length,
mean of the two middle elements for even length. -/
def median (values : List ℚ) : Option ℚ :=
  if values.isEmpty then none
  else
    let sorted := sortAsc values
    let mid := values.length / 2
    if values.length % 2 = 1 then some (sorted.getD mid 0)
    else some ((sorted.getD (mid - 1) 0 + sorted.getD mid 0) / 2)

/-- JS `buildReturns`: same length as the price series, entry 0 is 0, and
entry `i ≥ 1` is `close[i]/close[i-1] - 1` when `close[i-1]` is finite and
positive and `close[i]` is finite, else 0. -/
def buildReturns (monthly : List PricePoint) : List ℚ :=
  let closes := monthly.map (fun p => p.close)
  (List.range monthly.length).map fun i =>
    if i = 0 then 0
    else
      match closes[i-1]?, closes[i]? with
      | some (some prev), some (some cur) => if 0 < prev then cur / prev - 1 else 0
      | _, _ => 0

/-- JS `findMonthIndex`: first an exact month match, then a fallback match
through `monthToIndex`; `none` models the `-1` sentinel. -/
def findMonthIndex (monthly : List PricePoint) (mo : Month) : Option Nat :=
  match monthly.findIdx? (fun p => p.month = mo) with
  | some i => some i
  | none =>
    match monthToIndex mo with
    | none => none
    | some want => monthly.findIdx? (fun p => monthToIndex p.month = some want)

/-- Error payloads modelling the distinct `throw new Error(...)` sites of
the retirement engine. -/
inductive SimError where
  | startMonthNotFound : SimError
  | notEnoughData : SimError
  | withdrawRateNotPositive : SimError
  | guardrailsStartRateNotPositive : SimError
  | guardrailsMinRateNegative : SimError
  | guardrailsMaxRateNotPositive : SimError
  | guardrailsMinAboveMax : SimError
  | unknownMode (mode : String) : SimError
deriving DecidableEq, Repr

/-- The `guardrailsConfig` object of the source. -/
structure GuardrailsConfig where
  minRate : ℚ
  maxRate : ℚ
  step : ℚ
  minDollarFloor : ℚ
deriving DecidableEq, Repr

/-- Return value of `computeWithdrawal`; `newRate` is the (possibly mutated)
`guardrailsState.currentRate` after the call. -/
structure WithdrawalResult where
  withdrawal : ℚ
  guardrailsRate : Option ℚ
  newRate : Option ℚ
deriving DecidableEq, Repr

/-- JS `computeWithdrawal` (src/unnamed/part_001 lines 95-150).  The
`Number.isFinite(ytdReturnAfterMarket)` guard of the source is omitted: the
callers compute the YTD return as a rational, which is always finite in
this model. -/
def computeWithdrawal (mode : String) (ratePerYear initialBalance balance : ℚ)
    (frequency : String) (gRate : Option ℚ) (cfg : GuardrailsConfig)
    (ytdReturnAfterMarket : ℚ) (isWithdrawalMonth : Bool)
    (inflationBasePeriodWithdraw inflationFactor : ℚ) :
    Except SimError WithdrawalResult :=
  if isWithdrawalMonth = false then .ok ⟨0, gRate, gRate⟩
  else if mode = "percentOfInitial" then
    let annual := initialBalance * ratePerYear
    .ok ⟨if frequency = "monthly" then annual / 12 else annual, none, gRate⟩
  else if mode = "percentOfCurrent" then
    .ok ⟨inflationBasePeriodWithdraw * inflationFactor, none, gRate⟩
  else if mode = "guardrails" then
    let r1 : Option ℚ :=
      if ytdReturnAfterMarket > 0.08 then
        some (clamp (gRate.getD 0 + cfg.step) cfg.minRate cfg.maxRate)
      else if ytdReturnAfterMarket < 0.03 then
        some (clamp (gRate.getD 0 - cfg.step) cfg.minRate cfg.maxRate)
      else gRate
    let annual := balance * r1.getD 0
    let w0 := if frequency = "monthly" then annual / 12 else annual
    let w := if cfg.minDollarFloor > 0 then maxQ w0 cfg.minDollarFloor else w0
    .ok ⟨w, r1, r1⟩
  else .error (SimError.unknownMode mode)

/-- One entry pushed onto `series` by `runRetirementMonthly`. -/
structure Snapshot where
  month : Month
  value : ℚ
  withdrawal : ℚ
  guardrailsRatePct : Option ℚ
  inflationFactor : Option ℚ
deriving DecidableEq, Repr

/-- The mutable locals of the `runRetirementMonthly` loop, plus the ghost
field `bamTrace`. -/
structure LoopSt where
  balance : ℚ
  success : Bool
  totalWithdrawn : ℚ
  highestBalance : ℚ
  lowestBalance : ℚ
  peak : ℚ
  maxDrawdown : ℚ
  gRate : Option ℚ
  currentYear : Int
  yearStartBalance : ℚ
  inflationFactor : ℚ
  series : List Snapshot
  bamTrace : List ℚ
deriving DecidableEq, Repr

/-- The loop-invariant context of one retirement simulation (everything the
per-month body reads but never writes). -/
structure RetireCtx where
  monthly : List PricePoint
  returns : List ℚ
  mode : String
  frequency : String
  initialBalance : ℚ
  baseRateDecimal : ℚ
  cfg : GuardrailsConfig
  inflationBasePeriodWithdraw : ℚ
  monthlyInfl : ℚ
deriving DecidableEq, Repr

/-- Price point at loop index `i` (in-range at every use). -/
def ptAt (c : RetireCtx) (i : Nat) : PricePoint := c.monthly.getD i dfltPt

/-- Fiscal-year tracking: the current calendar year after the year-change
check at the top of the loop body. -/
def cyAt (c : RetireCtx) (i : Nat) (st : LoopSt) : Int :=
  if (ptAt c i).month.y ≠ st.currentYear then (ptAt c i).month.y else st.currentYear

/-- Fiscal-year tracking: `yearStartBalance` after the year-change check
(the pre-market balance when the year changed). -/
def ysbAt (c : RetireCtx) (i : Nat) (st : LoopSt) : ℚ :=
  if (ptAt c i).month.y ≠ st.currentYear then st.balance else st.yearStartBalance

/-- Balance after applying the market return of month `i`
(`balance *= (1 + returns[i])`). -/
def bamAt (c : RetireCtx) (i : Nat) (st : LoopSt) : ℚ :=
  st.balance * (1 + c.returns.getD i 0)

/-- Year-to-date return after market movement (`0` when the year-start
balance is not positive). -/
def ytdAt (c : RetireCtx) (i : Nat) (st : LoopSt) : ℚ :=
  if 0 < ysbAt c i st then bamAt c i st / ysbAt c i st - 1 else 0

/-- Month `i` is a withdrawal month: always for monthly frequency, only in
January otherwise. -/
def isWAt (c : RetireCtx) (i : Nat) : Bool :=
  if c.frequency = "monthly" then true else decide ((ptAt c i).month.m = 1)

/-- The withdrawal actually applied: `Math.min(balance, Math.max(0, withdrawal))`. -/
def wOf (bam : ℚ) (res : WithdrawalResult) : ℚ := minQ bam (maxQ 0 res.withdrawal)

/-- Post-withdrawal balance after the ruin clamp. -/
def b3Of (bam : ℚ) (res : WithdrawalResult) : ℚ :=
  if bam - wOf bam res ≤ 0 then 0 else bam - wOf bam res

/-- Everything the loop body of `runRetirementMonthly` does after
`computeWithdrawal` returns: apply the withdrawal, clamp at ruin, update
extrema, drawdown and the series, advance the inflation factor. -/
def settleMonth (c : RetireCtx) (st : LoopSt) (pt : PricePoint) (cy : Int)
    (ysb bam : ℚ) (res : WithdrawalResult) : LoopSt :=
  let w := wOf bam res
  let balance3 := b3Of bam res
  let peak := maxQ st.peak balance3
  { balance := balance3,
    success := if bam - w ≤ 0 then false else st.success,
    totalWithdrawn := st.totalWithdrawn + w,
    highestBalance := maxQ st.highestBalance balance3,
    lowestBalance := minQ st.lowestBalance balance3,
    peak := peak,
    maxDrawdown := maxQ st.maxDrawdown (if 0 < peak then (peak - balance3) / peak else 0),
    gRate := res.newRate,
    currentYear := cy,
    yearStartBalance := ysb,
    inflationFactor :=
      if c.mode = "percentOfCurrent" then st.inflationFactor * (1 + c.monthlyInfl)
      else st.inflationFactor,
    series := st.series ++
      [⟨pt.month, balance3, w, res.guardrailsRate.map (fun r => r * 100),
        if c.mode = "percentOfCurrent" then some st.inflationFactor else none⟩],
    bamTrace := st.bamTrace ++ [bam] }

/-- One iteration of the `runRetirementMonthly` loop body: the in-loop
withdraw-rate check, `computeWithdrawal`, then `settleMonth`. -/
def monthStep (c : RetireCtx) (i : Nat) (st : LoopSt) : Except SimError LoopSt :=
  if 0 < c.baseRateDecimal then
    match computeWithdrawal c.mode c.baseRateDecimal c.initialBalance (bamAt c i st)
        c.frequency st.gRate c.cfg (ytdAt c i st) (isWAt c i)
        c.inflationBasePeriodWithdraw st.inflationFactor with
    | .error e => .error e
    | .ok res => .ok (settleMonth c st (ptAt c i) (cyAt c i st) (ysbAt c i st) (bamAt c i st) res)
  else .error SimError.withdrawRateNotPositive

/-- The `for` loop of `runRetirementMonthly`, from index `i` for `fuel`
months, stopping early when `success` becomes false (ruin). -/
def retireLoop (c : RetireCtx) (i fuel : Nat) (st : LoopSt) : Except SimError LoopSt :=
  match fuel with
  | 0 => .ok st
  | fuel' + 1 =>
    match monthStep c i st with
    | .error e => .error e
    | .ok st' => if st'.success then retireLoop c (i+1) fuel' st' else .ok st'

/-- Input record of `runRetirementMonthly` (src/unnamed/part_001).
`guardrailsMinDollar = none` models a blank/non-finite dollar floor, and
`monthlyInfl` is the precomputed monthly inflation rate (see the header
comment and `monthlyInflationRateFromAnnualPct`). -/
structure RetireParams where
  monthly : List PricePoint
  initialBalance : ℚ
  startMonth : Month
  durationYears : Nat
  withdrawMode : String
  withdrawValue : ℚ
  withdrawFrequency : String
  guardrailsMinPct : ℚ
  guardrailsMaxPct : ℚ
  guardrailsMinDollar : Option ℚ
  monthlyInfl : ℚ
deriving DecidableEq, Repr

/-- The dollar floor actually used:
`Number.isFinite(guardrailsMinDollar) ? Math.max(0, guardrailsMinDollar) : 0`. -/
def dollarFloorOf (o : Option ℚ) : ℚ :=
  match o with
  | some d => maxQ 0 d
  | none => 0

/-- Guardrails initialisation of `runRetirementMonthly` including its four
validation throws; for other modes the state stays `null` and the config
keeps its defaults. -/
def guardrailsSetup (p : RetireParams) : Except SimError (Option ℚ × GuardrailsConfig) :=
  if p.withdrawMode = "guardrails" then
    let startRate := p.withdrawValue / 100
    let minRate := p.guardrailsMinPct / 100
    let maxRate := p.guardrailsMaxPct / 100
    if startRate ≤ 0 then .error SimError.guardrailsStartRateNotPositive
    else if minRate < 0 then .error SimError.guardrailsMinRateNegative
    else if maxRate ≤ 0 then .error SimError.guardrailsMaxRateNotPositive
    else if minRate > maxRate then .error SimError.guardrailsMinAboveMax
    else .ok (some (clamp startRate minRate maxRate),
      ⟨minRate, maxRate, 0.0025, dollarFloorOf p.guardrailsMinDollar⟩)
  else .ok (none, ⟨0, 1, 0.0025, 0⟩)

/-- The loop context built by `runRetirementMonthly` before its loop. -/
def retireCtxOf (p : RetireParams) (cfg : GuardrailsConfig) : RetireCtx :=
  { monthly := p.monthly,
    returns := buildReturns p.monthly,
    mode := p.withdrawMode,
    frequency := p.withdrawFrequency,
    initialBalance := p.initialBalance,
    baseRateDecimal := p.withdrawValue / 100,
    cfg := cfg,
    inflationBasePeriodWithdraw :=
      if p.withdrawMode = "percentOfCurrent" then
        (if p.withdrawFrequency = "monthly" then p.initialBalance * (p.withdrawValue / 100) / 12
         else p.initialBalance * (p.withdrawValue / 100))
      else 0,
    monthlyInfl := p.monthlyInfl }

/-- The initial loop state of `runRetirementMonthly`. -/
def initialLoopSt (p : RetireParams) (startIdx : Nat) (gRate0 : Option ℚ) : LoopSt :=
  { balance := p.initialBalance,
    success := true,
    totalWithdrawn := 0,
    highestBalance := p.initialBalance,
    lowestBalance := p.initialBalance,
    peak := p.initialBalance,
    maxDrawdown := 0,
    gRate := gRate0,
    currentYear := (p.monthly.getD startIdx dfltPt).month.y,
    yearStartBalance := p.initialBalance,
    inflationFactor := 1,
    series := [],
    bamTrace := [] }

/-- JS `runRetirementMonthly` returning the full final loop state: start
month lookup, the trailing-data check (note the source compares against
`monthly.length - 1`), guardrails setup, then the monthly loop. -/
def runRetirementMonthlyState (p : RetireParams) : Except SimError LoopSt :=
  match findMonthIndex p.monthly p.startMonth with
  | none => .error SimError.startMonthNotFound
  | some startIdx =>
    if ((startIdx + p.durationYears * 12 : Nat) : Int) > (p.monthly.length : Int) - 1 then
      .error SimError.notEnoughData
    else
      match guardrailsSetup p with
      | .error e => .error e
      | .ok (gRate0, cfg) =>
        retireLoop (retireCtxOf p cfg) startIdx (p.durationYears * 12)
          (initialLoopSt p startIdx gRate0)

/-- The result object of `runRetirementMonthly`. -/
structure SimResult where
  success : Bool
  totalWithdrawn : ℚ
  endingValue : ℚ
  maxDrawdown : ℚ
  highestBalance : ℚ
  lowestBalance : ℚ
  series : List Snapshot
deriving DecidableEq, Repr

/-- Projection of the final loop state onto the returned result object. -/
def stateToResult (st : LoopSt) : SimResult :=
  ⟨st.success, st.totalWithdrawn, st.balance, st.maxDrawdown,
   st.highestBalance, st.lowestBalance, st.series⟩

/-- JS `runRetirementMonthly` (src/unnamed/part_001 lines 152-305). -/
def runRetirementMonthly (p : RetireParams) : Except SimError SimResult :=
  (runRetirementMonthlyState p).map stateToResult

/-- JS `monthlyInflationRateFromAnnualPct`: convert an annual inflation
percentage to a monthly compounding rate, clamping the annual rate at
`-0.99`.  `Math.pow(1 + a, 1/12)` is the real power, so this helper lives
over `ℝ`; the simulator receives its value through the `monthlyInfl`
parameter. -/
noncomputable def monthlyInflationRateFromAnnualPct (annualPct : ℝ) : ℝ :=
  let a := annualPct / 100
  if a < -0.99 then -0.99 else (1 + a) ^ ((1 : ℝ) / 12) - 1

/-- The mutable locals of one inner run of `runRetirementSuccessByStartYear`,
plus the ghost field `trace` (clamped post-withdrawal balances). -/
structure SweepSt where
  balance : ℚ
  success : Bool
  gRate : Option ℚ
  currentYear : Int
  yearStartBalance : ℚ
  inflationFactor : ℚ
  highest : ℚ
  lowest : ℚ
  trace : List ℚ
deriving DecidableEq, Repr

/-- Fiscal-year tracking of the sweep inner loop (same as `cyAt`). -/
def scyAt (c : RetireCtx) (i : Nat) (st : SweepSt) : Int :=
  if (ptAt c i).month.y ≠ st.currentYear then (ptAt c i).month.y else st.currentYear

/-- Sweep inner loop `yearStartBalance` after the year-change check. -/
def sysbAt (c : RetireCtx) (i : Nat) (st : SweepSt) : ℚ :=
  if (ptAt c i).month.y ≠ st.currentYear then st.balance else st.yearStartBalance

/-- Sweep inner loop balance after the market return of month `i`. -/
def sbamAt (c : RetireCtx) (i : Nat) (st : SweepSt) : ℚ :=
  st.balance * (1 + c.returns.getD i 0)

/-- Sweep inner loop year-to-date return after market movement. -/
def sytdAt (c : RetireCtx) (i : Nat) (st : SweepSt) : ℚ :=
  if 0 < sysbAt c i st then sbamAt c i st / sysbAt c i st - 1 else 0

/-- One iteration of the sweep inner loop body.  Unlike the loop of
`runRetirementMonthly` it performs no withdraw-rate check, and on ruin it
breaks before updating the extrema, so the ruin month is not reflected in
`highest`/`lowest`. -/
def sweepStep (c : RetireCtx) (i : Nat) (st : SweepSt) : Except SimError SweepSt :=
  match computeWithdrawal c.mode c.baseRateDecimal c.initialBalance (sbamAt c i st)
      c.frequency st.gRate c.cfg (sytdAt c i st) (isWAt c i)
      c.inflationBasePeriodWithdraw st.inflationFactor with
  | .error e => .error e
  | .ok res =>
    let bam := sbamAt c i st
    let w := wOf bam res
    if bam - w ≤ 0 then
      .ok { balance := 0, success := false, gRate := res.newRate,
            currentYear := scyAt c i st, yearStartBalance := sysbAt c i st,
            inflationFactor := st.inflationFactor,
            highest := st.highest, lowest := st.lowest,
            trace := st.trace ++ [0] }
    else
      .ok { balance := bam - w, success := st.success, gRate := res.newRate,
            currentYear := scyAt c i st, yearStartBalance := sysbAt c i st,
            inflationFactor :=
              if c.mode = "percentOfCurrent" then st.inflationFactor * (1 + c.monthlyInfl)
              else st.inflationFactor,
            highest := maxQ st.highest (bam - w), lowest := minQ st.lowest (bam - w),
            trace := st.trace ++ [bam - w] }

/-- The inner `for` loop of `runRetirementSuccessByStartYear` (ruin breaks
out early via `success = false`). -/
def sweepLoop (c : RetireCtx) (i fuel : Nat) (st : SweepSt) : Except SimError SweepSt :=
  match fuel with
  | 0 => .ok st
  | fuel' + 1 =>
    match sweepStep c i st with
    | .error e => .error e
    | .ok st' => if st'.success then sweepLoop c (i+1) fuel' st' else .ok st'

/-- One record of the sweep `results` array. -/
structure YearOutcome where
  startYear : Int
  passed : Bool
  startingBalance : ℚ
  highestBalance : ℚ
  lowestBalance : ℚ
  endingBalance : ℚ
deriving DecidableEq, Repr

/-- Accumulator of the outer sweep loop.  `highestHit`/`lowestHit` model the
JS running extrema seeded with `-Infinity`/`Infinity` together with the
final `Number.isFinite` check: `none` is the untouched seed. -/
structure SweepAcc where
  results : List YearOutcome
  endingBalances : List ℚ
  highestHit : Option ℚ
  lowestHit : Option ℚ
deriving DecidableEq, Repr

/-- The fresh inner-loop state built for the eligible start index `i`. -/
def sweepInitSt (c : RetireCtx) (gRate0 : Option ℚ) (i : Nat) : SweepSt :=
  { balance := c.initialBalance, success := true, gRate := gRate0,
    currentYear := (ptAt c i).month.y, yearStartBalance := c.initialBalance,
    inflationFactor := 1, highest := c.initialBalance, lowest := c.initialBalance,
    trace := [] }

/-- The outer loop of `runRetirementSuccessByStartYear`: scan every index,
skip non-January months, stop scanning entirely (JS `break`) at the first
January whose window exceeds `monthly.length - 1`, and otherwise run one
independent inner simulation and record its outcome. -/
def sweepOuter (c : RetireCtx) (durationYears : Nat) (gRate0 : Option ℚ)
    (i fuel : Nat) (acc : SweepAcc) : Except SimError SweepAcc :=
  match fuel with
  | 0 => .ok acc
  | fuel' + 1 =>
    if (ptAt c i).month.m ≠ 1 then sweepOuter c durationYears gRate0 (i+1) fuel' acc
    else if ((i + durationYears * 12 : Nat) : Int) > (c.monthly.length : Int) - 1 then .ok acc
    else
      match sweepLoop c i (durationYears * 12) (sweepInitSt c gRate0 i) with
      | .error e => .error e
      | .ok stF =>
        sweepOuter c durationYears gRate0 (i+1) fuel'
          { results := acc.results ++
              [⟨(ptAt c i).month.y, stF.success, c.initialBalance,
                stF.highest, stF.lowest, stF.balance⟩],
            endingBalances := acc.endingBalances ++ [stF.balance],
            highestHit := some (match acc.highestHit with
              | none => stF.highest
              | some h => maxQ h stF.highest),
            lowestHit := some (match acc.lowestHit with
              | none => stF.lowest
              | some l => minQ l stF.lowest) }

/-- The sweep `summary` object. -/
structure SweepSummary where
  totalStartYearsTested : Nat
  successes : Nat
  successRate : ℚ
  averageEndingBalance : Option ℚ
  medianEndingBalance : Option ℚ
  highestBalanceHit : Option ℚ
  lowestBalanceHit : Option ℚ
deriving DecidableEq, Repr

/-- The result object of `runRetirementSuccessByStartYear`. -/
structure SweepResult where
  summary : SweepSummary
  results : List YearOutcome
deriving DecidableEq, Repr

/-- Input record of `runRetirementSuccessByStartYear` (same conventions as
`RetireParams`). -/
structure SweepParams where
  monthly : List PricePoint
  initialBalance : ℚ
  durationYears : Nat
  withdrawMode : String
  withdrawValue : ℚ
  withdrawFrequency : String
  guardrailsMinPct : ℚ
  guardrailsMaxPct : ℚ
  guardrailsMinDollar : Option ℚ
  monthlyInfl : ℚ
deriving DecidableEq, Repr

/-- Guardrails initialisation of the sweep: identical per inner run, and —
unlike `runRetirementMonthly` — with no validation whatsoever. -/
def sweepGuardrails (p : SweepParams) : Option ℚ × GuardrailsConfig :=
  if p.withdrawMode = "guardrails" then
    (some (clamp (p.withdrawValue / 100) (p.guardrailsMinPct / 100) (p.guardrailsMaxPct / 100)),
     ⟨p.guardrailsMinPct / 100, p.guardrailsMaxPct / 100, 0.0025,
       dollarFloorOf p.guardrailsMinDollar⟩)
  else (none, ⟨0, 1, 0.0025, 0⟩)

/-- The loop context shared by every inner run of the sweep. -/
def sweepCtxOf (p : SweepParams) : RetireCtx :=
  { monthly := p.monthly,
    returns := buildReturns p.monthly,
    mode := p.withdrawMode,
    frequency := p.withdrawFrequency,
    initialBalance := p.initialBalance,
    baseRateDecimal := p.withdrawValue / 100,
    cfg := (sweepGuardrails p).2,
    inflationBasePeriodWithdraw :=
      if p.withdrawMode = "percentOfCurrent" then
        (if p.withdrawFrequency = "monthly" then p.initialBalance * (p.withdrawValue / 100) / 12
         else p.initialBalance * (p.withdrawValue / 100))
      else 0,
    monthlyInfl := p.monthlyInfl }

/-- JS `runRetirementSuccessByStartYear` (src/unnamed/part_001 lines
307-478): run the outer scan and aggregate its accumulator into the
summary. -/
def runRetirementSuccessByStartYear (p : SweepParams) : Except SimError SweepResult :=
  match sweepOuter (sweepCtxOf p) p.durationYears (sweepGuardrails p).1 0
      p.monthly.length ⟨[], [], none, none⟩ with
  | .error e => .error e
  | .ok acc =>
    let total := acc.results.length
    let successes := (acc.results.filter (fun r => r.passed)).length
    .ok ⟨⟨total, successes,
        (if total ≠ 0 then (successes : ℚ) / (total : ℚ) else 0),
        (if total ≠ 0 then some (acc.endingBalances.sum / (total : ℚ)) else none),
        (if total ≠ 0 then median acc.endingBalances else none),
        acc.highestHit, acc.lowestHit⟩,
      acc.results⟩

/-- Default snapshot for positional indexing in theorem statements. -/
def dfltSnap : Snapshot := ⟨⟨0, 0⟩, 0, 0, none, none⟩

/-- Default simulation result used to extract concrete run outputs in
witness statements. -/
def dfltSimResult : SimResult := ⟨true, 0, 0, 0, 0, 0, []⟩

/-- Thirteen consecutive months (Jan 2020 through Jan 2021) with a constant
close of 100; the shortest series accepted for a one-year run. -/
def mthsConst13 : List PricePoint :=
  (List.range 13).map fun k => ⟨⟨2020 + (k / 12 : Nat), (k % 12 : Nat) + 1⟩, some 100⟩

/-- A one-year percent-of-initial run at 720 percent per year paid monthly
(monthly spending 60 from a balance of 100): ruins in month two. -/
def c1wParams : RetireParams :=
  ⟨mthsConst13, 100, ⟨2020, 1⟩, 1, "percentOfInitial", 720, "monthly", 0, 0, none, 0⟩

/-- The result of the C1 witness run. -/
def c1wRes : SimResult := (runRetirementMonthly c1wParams).toOption.getD dfltSimResult

/-- Boolean chain predicate over a series under the Guardrails policy:
every entry carries a reported rate (in percent) that lies within
`[loPct, hiPct]` and differs from the previous rate (starting from `q0`) by
at most 0.25 percentage points, i.e. one `step` of 0.0025 in rate terms. -/
def rateChainPct (q0 loPct hiPct : ℚ) : List Snapshot → Bool
  | [] => true
  | s :: rest =>
    match s.guardrailsRatePct with
    | none => false
    | some q =>
      (decide (loPct ≤ q) && decide (q ≤ hiPct) && decide (|q - q0| ≤ 1/4)) &&
        rateChainPct q loPct hiPct rest

/-- A one-year guardrails run: start rate 5 percent, guardrails 3 to 6
percent, paid monthly. -/
def c4wParams : RetireParams :=
  ⟨mthsConst13, 100, ⟨2020, 1⟩, 1, "guardrails", 5, "monthly", 3, 6, none, 0⟩

/-- The result of the C4 witness run. -/
def c4wRes : SimResult := (runRetirementMonthly c4wParams).toOption.getD dfltSimResult

/-- Boolean test that a list of rationals is monotonically non-decreasing. -/
def nondecrQ : List ℚ → Bool
  | [] => true
  | [_] => true
  | a :: b :: t => decide (a ≤ b) && nondecrQ (b :: t)

/-- A one-year inflation-adjusted (percentOfCurrent) run at a 720 percent
annual rate paid monthly with zero inflation: spending 60 per month from a
balance of 100 ruins in month two, and the ruin month's withdrawal is
clamped to the 40 that remains. -/
def c3cexParams : RetireParams :=
  ⟨mthsConst13, 100, ⟨2020, 1⟩, 1, "percentOfCurrent", 720, "monthly", 0, 0, none, 0⟩

/-- A surviving one-year inflation-adjusted run (1 per month from 100). -/
def c3wParams : RetireParams :=
  ⟨mthsConst13, 100, ⟨2020, 1⟩, 1, "percentOfCurrent", 12, "monthly", 0, 0, none, 0⟩

/-- The result of the C3 witness run. -/
def c3wRes : SimResult := (runRetirementMonthly c3wParams).toOption.getD dfltSimResult

/-- Boolean pointwise comparison of two equal-length rational lists. -/
def lePointwise : List ℚ → List ℚ → Bool
  | [], [] => true
  | a :: t, b :: u => decide (a ≤ b) && lePointwise t u
  | _, _ => false

/-- Default loop state used to extract concrete run states in witness
statements. -/
def dfltLoopSt : LoopSt := ⟨0, true, 0, 0, 0, 0, 0, none, 0, 0, 1, [], []⟩

/-- Thirteen months whose second close is negative (-50): month two then
carries a return of -150 percent. -/
def c7cexMonthly : List PricePoint :=
  (List.range 13).map fun k =>
    ⟨⟨2020 + (k / 12 : Nat), (k % 12 : Nat) + 1⟩, some (if k = 1 then -50 else 100)⟩

/-- A standard 4 percent percent-of-initial run over the negative-close
series: the month-two balance after market is negative and the recorded
withdrawal equals that negative balance. -/
def c7cexParams : RetireParams :=
  ⟨c7cexMonthly, 100, ⟨2020, 1⟩, 1, "percentOfInitial", 4, "monthly", 0, 0, none, 0⟩

/-- The final loop state of the C7 witness run. -/
def c7wSt : LoopSt := (runRetirementMonthlyState c3wParams).toOption.getD dfltLoopSt

/-- A sweep whose single eligible run (January 2020) ruins in its first
month: monthly spending 200 from a balance of 100. -/
def c5cexSweep : SweepParams :=
  ⟨mthsConst13, 100, 1, "percentOfInitial", 2400, "monthly", 0, 0, none, 0⟩

/-- A sweep whose single eligible run survives (spending 1 per month). -/
def c5wSweep : SweepParams :=
  ⟨mthsConst13, 100, 1, "percentOfInitial", 12, "monthly", 0, 0, none, 0⟩

/-- Default sweep inner state for witness extraction. -/
def dfltSweepSt : SweepSt := ⟨0, true, none, 0, 0, 1, 0, 0, []⟩

/-- The final inner-loop state of the C5 witness sweep run. -/
def c5wInner : SweepSt :=
  (sweepLoop (sweepCtxOf c5wSweep) 0 12 (sweepInitSt (sweepCtxOf c5wSweep) none 0)).toOption.getD
    dfltSweepSt

/-- Twelve months of 2020 with constant close 100: exactly `years*12` data
points for a one-year window, which the claim deems sufficient but the
source rejects. -/
def c2cexMonthly : List PricePoint :=
  (List.range 12).map fun k => ⟨⟨2020, (k : Int) + 1⟩, some 100⟩

/-- A valid one-year percent-of-initial configuration over exactly twelve
months of data. -/
def c2cexParams : RetireParams :=
  ⟨c2cexMonthly, 100, ⟨2020, 1⟩, 1, "percentOfInitial", 4, "monthly", 0, 0, none, 0⟩

/-- A guardrails sweep with min percent 6 above max percent 3: the claim
says it must fail fast; the source runs it without any validation. -/
def c6cexSweep : SweepParams :=
  ⟨mthsConst13, 100, 1, "guardrails", 5, "monthly", 6, 3, none, 0⟩

/-- The same invalid guardrails configuration given to
`runRetirementMonthly`, which does validate it. -/
def c6wBad : RetireParams :=
  ⟨mthsConst13, 100, ⟨2020, 1⟩, 1, "guardrails", 5, "monthly", 6, 3, none, 0⟩

/-- A negative withdraw rate with a zero-month duration: the in-loop rate
check never executes. -/
def c6wZero : RetireParams :=
  ⟨mthsConst13, 100, ⟨2020, 1⟩, 0, "percentOfInitial", -5, "monthly", 0, 0, none, 0⟩

/-- The (successful!) result of the zero-duration negative-rate run. -/
def c6wZeroRes : SimResult := (runRetirementMonthly c6wZero).toOption.getD dfltSimResult

/-- Default sweep result for witness extraction. -/
def dfltSweepResult : SweepResult := ⟨⟨0, 0, 0, none, none, none, none⟩, []⟩

/-- A sweep with a single non-January month: no start year qualifies. -/
def c8wEmpty : SweepParams :=
  ⟨[⟨⟨2020, 2⟩, some 100⟩], 100, 1, "percentOfInitial", 4, "monthly", 0, 0, none, 0⟩

/-- The summary of the empty sweep. -/
def c8wOut : SweepResult :=
  (runRetirementSuccessByStartYear c8wEmpty).toOption.getD dfltSweepResult

/-- The summary of a sweep that tests one start year. -/
def c8wOut2 : SweepResult :=
  (runRetirementSuccessByStartYear c5wSweep).toOption.getD dfltSweepResult

/-- Chain predicate for C10: every snapshot reports a guardrails rate, and a
snapshot of a non-January month reports the same rate as the snapshot before
it (so the reported rate can change only at January entries). `q0` is the
rate reported before the list starts. -/
def ratesOffJanuaryFixed (q0 : ℚ) : List Snapshot → Bool
  | [] => true
  | s :: rest =>
    match s.guardrailsRatePct with
    | none => false
    | some q => (if s.month.m ≠ 1 then decide (q = q0) else true) &&
        ratesOffJanuaryFixed q rest

/-- A guardrails/annual loop context over the thirteen constant months. -/
def c10wCtx : RetireCtx :=
  ⟨mthsConst13, buildReturns mthsConst13, "guardrails", "annual", 100, 0.05,
    ⟨0.03, 0.06, 0.0025, 0⟩, 0, 0⟩

/-- Loop state at entry of the run in `c10wCtx` (balance 100, rate 5 percent). -/
def c10wSt0 : LoopSt := ⟨100, true, 0, 100, 100, 100, 0, some 0.05, 2019, 100, 1, [], []⟩

/-- The final loop state of the thirteen-month guardrails/annual run. -/
def c10wRes : LoopSt := (retireLoop c10wCtx 0 13 c10wSt0).toOption.getD dfltLoopSt

/-- The annual inflation assumption actually used (src/unnamed/part_001
line 216): the given value when `percentOfCurrentAnnualInflationPct` is a
finite number, the documented default 3 otherwise. -/
def annualInflPctOf (o : Option ℚ) : ℚ :=
  match o with
  | some x => x
  | none => 3

/-- Thirteen February months of successive years (constant close 100): an
annual-frequency run over them never meets a withdrawal month. -/
def mthsFeb13 : List PricePoint :=
  (List.range 13).map fun k => ⟨⟨2020 + (k : Nat), 2⟩, some 100⟩

/-- An unrecognized policy tag with a zero-month duration: the tag is never
inspected and the run silently succeeds. -/
def c6cexUnknown : RetireParams :=
  ⟨mthsConst13, 100, ⟨2020, 1⟩, 0, "foo", 5, "monthly", 3, 6, none, 0⟩

/-- The (successful) result of the zero-duration unknown-tag run. -/
def c6wUnkRes : SimResult := (runRetirementMonthly c6cexUnknown).toOption.getD dfltSimResult

/-- An unrecognized policy tag in a full one-year annual-frequency run over
the February-only months: twelve months simulate without any validation. -/
def c6cexUnknownAnnual : RetireParams :=
  ⟨mthsFeb13, 100, ⟨2020, 2⟩, 1, "foo", 5, "annual", 3, 6, none, 0⟩

/-- A valid guardrails configuration with a blank dollar floor. -/
def c6wValid : RetireParams :=
  ⟨mthsConst13, 100, ⟨2020, 1⟩, 1, "guardrails", 5, "annual", 3, 6, none, 0⟩

/-- The guardrails state and config produced for `c6wValid`. -/
def c6wSetup : Option ℚ × GuardrailsConfig :=
  (guardrailsSetup c6wValid).toOption.getD (none, ⟨0, 1, 0.0025, 0⟩)

/-! Bridge lemmas between the executable `minQ`/`maxQ` and the order-theoretic
`min`/`max`, and basic facts about `clamp`. -/

theorem maxQ_eq (a b : ℚ) : maxQ a b = max a b := by
  unfold maxQ
  split
  · exact (max_eq_right (by assumption)).symm
  · exact (max_eq_left (le_of_not_le (by assumption))).symm

theorem minQ_eq (a b : ℚ) : minQ a b = min a b := by
  unfold minQ
  split
  · exact (min_eq_left (by assumption)).symm
  · exact (min_eq_right (le_of_not_le (by assumption))).symm

theorem clamp_eq (n lo hi : ℚ) : clamp n lo hi = max lo (min hi n) := by
  rw [clamp, maxQ_eq, minQ_eq]

theorem clamp_mem (n lo hi : ℚ) (h : lo ≤ hi) :
    lo ≤ clamp n lo hi ∧ clamp n lo hi ≤ hi := by
  rw [clamp_eq]
  exact ⟨le_max_left lo (min hi n), max_le h (min_le_left hi n)⟩

theorem clamp_add_mem (r s lo hi : ℚ) (hlo : lo ≤ r) (hhi : r ≤ hi) (hs : 0 ≤ s) :
    r ≤ clamp (r + s) lo hi ∧ clamp (r + s) lo hi ≤ r + s := by
  rw [clamp_eq]
  constructor
  · exact le_max_of_le_right (le_min hhi (by linarith))
  · exact max_le (by linarith) (min_le_right hi (r + s))

theorem clamp_sub_mem (r s lo hi : ℚ) (hlo : lo ≤ r) (hhi : r ≤ hi) (hs : 0 ≤ s) :
    r - s ≤ clamp (r - s) lo hi ∧ clamp (r - s) lo hi ≤ r := by
  rw [clamp_eq]
  constructor
  · exact le_max_of_le_right (le_min (by linarith) (le_refl (r - s)))
  · exact max_le hlo (le_trans (min_le_right hi (r - s)) (by linarith))

/-! Basic facts about one settled month. -/

theorem wOf_le_bam (bam : ℚ) (res : WithdrawalResult) : wOf bam res ≤ bam := by
  rw [wOf, minQ_eq]
  exact min_le_left _ _

theorem wOf_nonneg (bam : ℚ) (res : WithdrawalResult) (h : 0 ≤ bam) :
    0 ≤ wOf bam res := by
  rw [wOf, minQ_eq, maxQ_eq]
  exact le_min h (le_max_left 0 res.withdrawal)

theorem b3Of_nonneg (bam : ℚ) (res : WithdrawalResult) : 0 ≤ b3Of bam res := by
  rw [b3Of]
  split
  · exact le_refl 0
  · linarith [lt_of_not_le (by assumption : ¬ bam - wOf bam res ≤ 0)]

theorem b3Of_of_ruin (bam : ℚ) (res : WithdrawalResult) (h : bam - wOf bam res ≤ 0) :
    b3Of bam res = 0 := by
  rw [b3Of, if_pos h]

theorem b3Of_of_live (bam : ℚ) (res : WithdrawalResult) (h : ¬ bam - wOf bam res ≤ 0) :
    b3Of bam res = bam - wOf bam res := by
  rw [b3Of, if_neg h]

theorem settleMonth_series (c : RetireCtx) (st : LoopSt) (pt : PricePoint) (cy : Int)
    (ysb bam : ℚ) (res : WithdrawalResult) :
    (settleMonth c st pt cy ysb bam res).series = st.series ++
      [⟨pt.month, b3Of bam res, wOf bam res, res.guardrailsRate.map (fun r => r * 100),
        if c.mode = "percentOfCurrent" then some st.inflationFactor else none⟩] := rfl

theorem settleMonth_balance (c : RetireCtx) (st : LoopSt) (pt : PricePoint) (cy : Int)
    (ysb bam : ℚ) (res : WithdrawalResult) :
    (settleMonth c st pt cy ysb bam res).balance = b3Of bam res := rfl

theorem settleMonth_success (c : RetireCtx) (st : LoopSt) (pt : PricePoint) (cy : Int)
    (ysb bam : ℚ) (res : WithdrawalResult) :
    (settleMonth c st pt cy ysb bam res).success =
      if bam - wOf bam res ≤ 0 then false else st.success := rfl

theorem settleMonth_gRate (c : RetireCtx) (st : LoopSt) (pt : PricePoint) (cy : Int)
    (ysb bam : ℚ) (res : WithdrawalResult) :
    (settleMonth c st pt cy ysb bam res).gRate = res.newRate := rfl

theorem settleMonth_totalWithdrawn (c : RetireCtx) (st : LoopSt) (pt : PricePoint) (cy : Int)
    (ysb bam : ℚ) (res : WithdrawalResult) :
    (settleMonth c st pt cy ysb bam res).totalWithdrawn =
      st.totalWithdrawn + wOf bam res := rfl

theorem settleMonth_highest (c : RetireCtx) (st : LoopSt) (pt : PricePoint) (cy : Int)
    (ysb bam : ℚ) (res : WithdrawalResult) :
    (settleMonth c st pt cy ysb bam res).highestBalance =
      maxQ st.highestBalance (b3Of bam res) := rfl

theorem settleMonth_lowest (c : RetireCtx) (st : LoopSt) (pt : PricePoint) (cy : Int)
    (ysb bam : ℚ) (res : WithdrawalResult) :
    (settleMonth c st pt cy ysb bam res).lowestBalance =
      minQ st.lowestBalance (b3Of bam res) := rfl

theorem settleMonth_bamTrace (c : RetireCtx) (st : LoopSt) (pt : PricePoint) (cy : Int)
    (ysb bam : ℚ) (res : WithdrawalResult) :
    (settleMonth c st pt cy ysb bam res).bamTrace = st.bamTrace ++ [bam] := rfl

theorem settleMonth_inflationFactor (c : RetireCtx) (st : LoopSt) (pt : PricePoint) (cy : Int)
    (ysb bam : ℚ) (res : WithdrawalResult) :
    (settleMonth c st pt cy ysb bam res).inflationFactor =
      if c.mode = "percentOfCurrent" then st.inflationFactor * (1 + c.monthlyInfl)
      else st.inflationFactor := rfl

/-- Inversion principle for one month of simulation. -/
theorem monthStep_ok_iff (c : RetireCtx) (i : Nat) (st st' : LoopSt) :
    monthStep c i st = .ok st' ↔
      0 < c.baseRateDecimal ∧ ∃ res,
        computeWithdrawal c.mode c.baseRateDecimal c.initialBalance (bamAt c i st)
          c.frequency st.gRate c.cfg (ytdAt c i st) (isWAt c i)
          c.inflationBasePeriodWithdraw st.inflationFactor = .ok res ∧
        st' = settleMonth c st (ptAt c i) (cyAt c i st) (ysbAt c i st) (bamAt c i st) res := by
  unfold monthStep
  constructor
  · intro he
    split at he
    · refine ⟨by assumption, ?_⟩
      split at he
      · exact absurd he (by simp)
      · rename_i res heq
        have h2 : settleMonth c st (ptAt c i) (cyAt c i st) (ysbAt c i st)
            (bamAt c i st) res = st' := by simpa using he
        exact ⟨res, heq, h2.symm⟩
    · exact absurd he (by simp)
  · rintro ⟨h1, res, hcw, rfl⟩
    rw [if_pos h1, hcw]

theorem retireLoop_zero (c : RetireCtx) (i : Nat) (st : LoopSt) :
    retireLoop c i 0 st = .ok st := rfl

theorem retireLoop_succ (c : RetireCtx) (i fuel : Nat) (st : LoopSt) :
    retireLoop c i (fuel + 1) st =
      match monthStep c i st with
      | .error e => .error e
      | .ok st' => if st'.success then retireLoop c (i+1) fuel st' else .ok st' := rfl

/-- Pointwise description of `buildReturns`. -/
theorem buildReturns_getD (monthly : List PricePoint) (i : Nat) (hi : i < monthly.length) :
    (buildReturns monthly).getD i 0 =
      if i = 0 then 0
      else
        match ((monthly.map (fun p => p.close))[i-1]?), ((monthly.map (fun p => p.close))[i]?) with
        | some (some prev), some (some cur) => if 0 < prev then cur / prev - 1 else 0
        | _, _ => 0 := by
  unfold buildReturns
  rw [List.getD_eq_getElem?_getD, List.getElem?_map, List.getElem?_range hi]
  rfl

/-- C9: for every price series the return series built by `buildReturns`
has the same length as the price series, entry 0 equals 0, and entry
`i ≥ 1` equals `close[i]/close[i-1] - 1` exactly when the previous close is
finite and positive and the current close is finite, else 0.  Every entry
is a rational number by construction, which is this model's rendering of
"return[i] is finite for every i". -/
theorem spec_c9_buildReturns (monthly : List PricePoint) :
    (buildReturns monthly).length = monthly.length ∧
    (0 < monthly.length → (buildReturns monthly).getD 0 0 = 0) ∧
    ∀ i, 1 ≤ i → i < monthly.length →
      (buildReturns monthly).getD i 0 =
        match (monthly.getD (i-1) dfltPt).close, (monthly.getD i dfltPt).close with
        | some prev, some cur => if 0 < prev then cur / prev - 1 else 0
        | _, _ => 0 := by
  refine ⟨by unfold buildReturns; simp,
    fun h => by rw [buildReturns_getD monthly 0 h]; simp, ?_⟩
  intro i h1 hi
  have hi1 : i - 1 < monthly.length := lt_of_le_of_lt (Nat.sub_le i 1) hi
  rw [buildReturns_getD monthly i hi, if_neg (by omega)]
  rw [List.getElem?_map, List.getElem?_map,
    List.getElem?_eq_getElem hi1, List.getElem?_eq_getElem hi,
    List.getD_eq_getElem monthly dfltPt hi1, List.getD_eq_getElem monthly dfltPt hi]
  simp only [Option.map_some']
  rcases hprev : (monthly[i-1].close) with _ | prev <;>
    rcases hcur : (monthly[i].close) with _ | cur <;> simp [hprev, hcur]

/-- Invariant of the retirement loop: starting from a live state whose
series entries are all positive, either the loop ends live with every entry
positive, or it ends in ruin with a final zero-valued entry preceded only
by positive entries. -/
theorem retireLoop_ruin (c : RetireCtx) : ∀ fuel i st st',
    st.success = true → (∀ s ∈ st.series, 0 < s.value) →
    retireLoop c i fuel st = .ok st' →
    (st'.success = true ∧ ∀ s ∈ st'.series, 0 < s.value) ∨
    (st'.success = false ∧ ∃ pre snap, st'.series = pre ++ [snap] ∧ snap.value = 0 ∧
      ∀ s ∈ pre, 0 < s.value) := by
  intro fuel
  induction fuel with
  | zero =>
    intro i st st' hs hp he
    rw [retireLoop_zero] at he
    obtain rfl : st = st' := by simpa using he
    exact Or.inl ⟨hs, hp⟩
  | succ fuel ih =>
    intro i st st' hs hp he
    rw [retireLoop_succ] at he
    split at he
    · exact absurd he (by simp)
    · rename_i st1 heq
      rw [monthStep_ok_iff] at heq
      obtain ⟨hrate, res, hcw, rfl⟩ := heq
      split at he
      · rename_i hsucc1
        refine ih (i+1) _ st' hsucc1 ?_ he
        rw [settleMonth_series]
        intro s hsm
        rcases List.mem_append.mp hsm with h1 | h2
        · exact hp s h1
        · obtain rfl := List.mem_singleton.mp h2
          rw [settleMonth_success] at hsucc1
          by_cases hr : bamAt c i st - wOf (bamAt c i st) res ≤ 0
          · rw [if_pos hr] at hsucc1
            exact absurd hsucc1 (by simp)
          · show 0 < b3Of (bamAt c i st) res
            rw [b3Of_of_live _ _ hr]
            linarith [lt_of_not_le hr]
      · rename_i hsucc1
        obtain rfl :
            settleMonth c st (ptAt c i) (cyAt c i st) (ysbAt c i st) (bamAt c i st) res = st' := by
          simpa using he
        right
        rw [settleMonth_success] at hsucc1
        by_cases hr : bamAt c i st - wOf (bamAt c i st) res ≤ 0
        · refine ⟨?_, st.series, _, settleMonth_series c st _ _ _ _ res, ?_, hp⟩
          · rw [settleMonth_success, if_pos hr]
          · exact b3Of_of_ruin _ _ hr
        · rw [if_neg hr] at hsucc1
          exact absurd hs hsucc1

/-- Inversion of a successful `runRetirementMonthlyState` into its lookup,
bound check, guardrails setup and loop. -/
theorem runState_ok_elim (p : RetireParams) (st' : LoopSt)
    (h : runRetirementMonthlyState p = .ok st') :
    ∃ startIdx gRate0 cfg,
      findMonthIndex p.monthly p.startMonth = some startIdx ∧
      ¬(((startIdx + p.durationYears * 12 : Nat) : Int) > (p.monthly.length : Int) - 1) ∧
      guardrailsSetup p = .ok (gRate0, cfg) ∧
      retireLoop (retireCtxOf p cfg) startIdx (p.durationYears * 12)
        (initialLoopSt p startIdx gRate0) = .ok st' := by
  unfold runRetirementMonthlyState at h
  split at h
  · exact absurd h (by simp)
  · rename_i startIdx hfind
    split at h
    · exact absurd h (by simp)
    · rename_i hbound
      split at h
      · exact absurd h (by simp)
      · rename_i gRate0 cfg hsetup
        exact ⟨startIdx, gRate0, cfg, hfind, hbound, hsetup, h⟩

/-- A successful `runRetirementMonthly` is the projection of a successful
`runRetirementMonthlyState`. -/
theorem run_ok_elim (p : RetireParams) (res : SimResult)
    (h : runRetirementMonthly p = .ok res) :
    ∃ st', runRetirementMonthlyState p = .ok st' ∧ res = stateToResult st' := by
  unfold runRetirementMonthly at h
  cases hst : runRetirementMonthlyState p with
  | error e => rw [hst] at h; exact absurd h (by simp [Except.map])
  | ok st' =>
    rw [hst] at h
    have h2 : stateToResult st' = res := by simpa [Except.map] using h
    exact ⟨st', rfl, h2.symm⟩

/-- C1: in every returned retirement result, every series entry has a
non-negative value, and an entry of value 0 can only be the last entry,
forces the success flag to false, and (being last) no further months were
simulated after it. -/
theorem spec_c1_ruin_truncates (p : RetireParams) (res : SimResult)
    (h : runRetirementMonthly p = .ok res) :
    ∀ k, k < res.series.length →
      0 ≤ (res.series.getD k dfltSnap).value ∧
      ((res.series.getD k dfltSnap).value = 0 →
        res.success = false ∧ k = res.series.length - 1) := by
  obtain ⟨st', hst, rfl⟩ := run_ok_elim p res h
  obtain ⟨startIdx, gRate0, cfg, hfind, hbound, hsetup, hloop⟩ := runState_ok_elim p st' hst
  have hinv := retireLoop_ruin (retireCtxOf p cfg) (p.durationYears * 12) startIdx
    (initialLoopSt p startIdx gRate0) st' rfl (by intro s hse; simp [initialLoopSt] at hse) hloop
  intro k hk
  rcases hinv with ⟨hsucc, hpos⟩ | ⟨hfail, pre, snap, hser, hz, hpre⟩
  · have hmem : (st'.series.getD k dfltSnap) ∈ st'.series := by
      rw [List.getD_eq_getElem st'.series dfltSnap hk]
      exact List.getElem_mem hk
    exact ⟨le_of_lt (hpos _ hmem), fun hzv => absurd hzv (ne_of_gt (hpos _ hmem))⟩
  · simp only [stateToResult] at hk ⊢
    rw [hser] at hk ⊢
    rw [List.getD_eq_getElem _ dfltSnap hk]
    have hlen : (pre ++ [snap]).length = pre.length + 1 := by simp
    by_cases hkp : k < pre.length
    · rw [List.getElem_append_left hkp]
      have hmem : pre[k] ∈ pre := List.getElem_mem hkp
      exact ⟨le_of_lt (hpre _ hmem), fun hzv => absurd hzv (ne_of_gt (hpre _ hmem))⟩
    · have hke : k = pre.length := by rw [hlen] at hk; omega
      subst hke
      have hsn : (pre ++ [snap])[pre.length] = snap := by
        rw [List.getElem_append_right (le_refl pre.length)]
        simp
      rw [hsn, hz]
      exact ⟨le_refl 0, fun _ => ⟨hfail, by rw [hlen]; omega⟩⟩

/-- Witness for C1: the witness run ruins at its second month; that entry
has value exactly 0, is the last entry, and the run is marked failed. -/
theorem spec_c1_ruin_truncates_witness :
    1 < c1wRes.series.length ∧
    0 ≤ (c1wRes.series.getD 1 dfltSnap).value ∧
    ((c1wRes.series.getD 1 dfltSnap).value = 0 ∧
      c1wRes.success = false ∧ 1 = c1wRes.series.length - 1) := by
  have hrun : runRetirementMonthly c1wParams = .ok c1wRes := by
    with_unfolding_all rfl
  have hlen2 : c1wRes.series.length = 2 := by with_unfolding_all rfl
  have hlen : 1 < c1wRes.series.length := by omega
  have hz : (c1wRes.series.getD 1 dfltSnap).value = 0 := by with_unfolding_all rfl
  obtain ⟨h1, h2⟩ := spec_c1_ruin_truncates c1wParams c1wRes hrun 1 hlen
  exact ⟨hlen, h1, hz, (h2 hz).1, (h2 hz).2⟩

/-- Witness for C9 on the two-point series of the specification example:
`[100, 90] → returns [0, -0.10]`. -/
theorem spec_c9_buildReturns_witness :
    (buildReturns [⟨⟨2020,1⟩, some 100⟩, ⟨⟨2020,2⟩, some 90⟩]).length = 2 ∧
    (buildReturns [⟨⟨2020,1⟩, some 100⟩, ⟨⟨2020,2⟩, some 90⟩]).getD 0 0 = 0 ∧
    (buildReturns [⟨⟨2020,1⟩, some 100⟩, ⟨⟨2020,2⟩, some 90⟩]).getD 1 0 = 90/100 - 1 := by
  refine ⟨(spec_c9_buildReturns _).1, (spec_c9_buildReturns _).2.1 (by norm_num), ?_⟩
  rw [(spec_c9_buildReturns [⟨⟨2020,1⟩, some 100⟩, ⟨⟨2020,2⟩, some 90⟩]).2.2 1
    (le_refl 1) (by norm_num)]
  with_unfolding_all rfl

/-- Inversion of a successful guardrails setup: the validated bounds hold
and the state and config have their initialisation values. -/
theorem guardrailsSetup_ok_elim (p : RetireParams) (hmode : p.withdrawMode = "guardrails")
    (g : Option ℚ) (cfg : GuardrailsConfig) (h : guardrailsSetup p = .ok (g, cfg)) :
    g = some (clamp (p.withdrawValue / 100) (p.guardrailsMinPct / 100) (p.guardrailsMaxPct / 100)) ∧
    cfg.minRate = p.guardrailsMinPct / 100 ∧ cfg.maxRate = p.guardrailsMaxPct / 100 ∧
    cfg.step = 0.0025 ∧
    0 < p.withdrawValue / 100 ∧ 0 ≤ p.guardrailsMinPct / 100 ∧
    0 < p.guardrailsMaxPct / 100 ∧ p.guardrailsMinPct / 100 ≤ p.guardrailsMaxPct / 100 := by
  unfold guardrailsSetup at h
  rw [if_pos hmode] at h
  dsimp only [] at h
  split at h
  · exact absurd h (by simp)
  · rename_i h1
    split at h
    · exact absurd h (by simp)
    · rename_i h2
      split at h
      · exact absurd h (by simp)
      · rename_i h3
        split at h
        · exact absurd h (by simp)
        · rename_i h4
          have h6 := h
          simp only [Except.ok.injEq, Prod.mk.injEq] at h6
          obtain ⟨hg, hcfg⟩ := h6
          refine ⟨hg.symm, ?_, ?_, ?_, lt_of_not_le h1, le_of_not_lt h2,
            lt_of_not_le h3, le_of_not_lt h4⟩
          · rw [← hcfg]
          · rw [← hcfg]
          · rw [← hcfg]

/-- How one `computeWithdrawal` call moves the guardrails rate. -/
theorem computeWithdrawal_guardrails_rate (mode : String) (rate init bal : ℚ)
    (freq : String) (gRate : Option ℚ) (cfg : GuardrailsConfig) (ytd : ℚ) (isW : Bool)
    (base f : ℚ) (res : WithdrawalResult) (hmode : mode = "guardrails")
    (h : computeWithdrawal mode rate init bal freq gRate cfg ytd isW base f = .ok res) :
    res.guardrailsRate = res.newRate ∧
    res.newRate =
      (if isW = false then gRate
       else if ytd > 0.08 then some (clamp (gRate.getD 0 + cfg.step) cfg.minRate cfg.maxRate)
       else if ytd < 0.03 then some (clamp (gRate.getD 0 - cfg.step) cfg.minRate cfg.maxRate)
       else gRate) := by
  subst hmode
  unfold computeWithdrawal at h
  by_cases hw : isW = false
  · rw [if_pos hw] at h
    obtain rfl : (⟨0, gRate, gRate⟩ : WithdrawalResult) = res := by simpa using h
    rw [if_pos hw]
    exact ⟨rfl, rfl⟩
  · rw [if_neg hw] at h
    simp only [show ("guardrails" = "percentOfInitial") = False by simp,
      show ("guardrails" = "percentOfCurrent") = False by simp, if_false, if_true,
      show ("guardrails" = "guardrails") = True by simp] at h
    rw [if_neg hw]
    by_cases h8 : ytd > 0.08
    · rw [if_pos h8] at h ⊢
      obtain rfl : _ = res := by simpa using h
      exact ⟨rfl, rfl⟩
    · rw [if_neg h8] at h ⊢
      by_cases h3 : ytd < 0.03
      · rw [if_pos h3] at h ⊢
        obtain rfl : _ = res := by simpa using h
        exact ⟨rfl, rfl⟩
      · rw [if_neg h3] at h ⊢
        obtain rfl : _ = res := by simpa using h
        exact ⟨rfl, rfl⟩

/-- One guardrails month keeps the rate inside the clamp interval, moves it
by at most one step, and reports it (times 100) in the pushed snapshot. -/
theorem monthStep_rate (c : RetireCtx) (i : Nat) (st st' : LoopSt)
    (hmode : c.mode = "guardrails") (hml : c.cfg.minRate ≤ c.cfg.maxRate)
    (hstep : c.cfg.step = 0.0025) (r : ℚ) (hr : st.gRate = some r)
    (hlo : c.cfg.minRate ≤ r) (hhi : r ≤ c.cfg.maxRate)
    (h : monthStep c i st = .ok st') :
    ∃ r' snap, st'.gRate = some r' ∧ c.cfg.minRate ≤ r' ∧ r' ≤ c.cfg.maxRate ∧
      |r' - r| ≤ 0.0025 ∧ st'.series = st.series ++ [snap] ∧
      snap.guardrailsRatePct = some (r' * 100) := by
  rw [monthStep_ok_iff] at h
  obtain ⟨hrate, res, hcw, rfl⟩ := h
  obtain ⟨hgr, hnr⟩ := computeWithdrawal_guardrails_rate c.mode c.baseRateDecimal
    c.initialBalance (bamAt c i st) c.frequency st.gRate c.cfg (ytdAt c i st) (isWAt c i)
    c.inflationBasePeriodWithdraw st.inflationFactor res hmode hcw
  rw [hr] at hnr
  have hget : (some r).getD 0 = r := rfl
  rw [hget, hstep] at hnr
  have key : ∃ r', res.newRate = some r' ∧ c.cfg.minRate ≤ r' ∧ r' ≤ c.cfg.maxRate ∧
      |r' - r| ≤ 0.0025 := by
    by_cases hw : isWAt c i = false
    · rw [if_pos hw] at hnr
      exact ⟨r, hnr, hlo, hhi, by rw [sub_self, abs_zero]; norm_num⟩
    · rw [if_neg hw] at hnr
      by_cases h8 : ytdAt c i st > 0.08
      · rw [if_pos h8] at hnr
        refine ⟨clamp (r + 0.0025) c.cfg.minRate c.cfg.maxRate, hnr,
          (clamp_mem _ _ _ hml).1, (clamp_mem _ _ _ hml).2, ?_⟩
        obtain ⟨ha, hb⟩ := clamp_add_mem r 0.0025 c.cfg.minRate c.cfg.maxRate hlo hhi
          (by norm_num)
        have h0 : (0:ℚ) ≤ 0.0025 := by norm_num
        exact abs_le.mpr ⟨by linarith, by linarith⟩
      · rw [if_neg h8] at hnr
        by_cases h3 : ytdAt c i st < 0.03
        · rw [if_pos h3] at hnr
          refine ⟨clamp (r - 0.0025) c.cfg.minRate c.cfg.maxRate, hnr,
            (clamp_mem _ _ _ hml).1, (clamp_mem _ _ _ hml).2, ?_⟩
          obtain ⟨ha, hb⟩ := clamp_sub_mem r 0.0025 c.cfg.minRate c.cfg.maxRate hlo hhi
            (by norm_num)
          have h0 : (0:ℚ) ≤ 0.0025 := by norm_num
          exact abs_le.mpr ⟨by linarith, by linarith⟩
        · rw [if_neg h3] at hnr
          exact ⟨r, hnr, hlo, hhi, by rw [sub_self, abs_zero]; norm_num⟩
  obtain ⟨r', hr', hlo', hhi', habs⟩ := key
  refine ⟨r', _, ?_, hlo', hhi', habs, settleMonth_series c st _ _ _ _ res, ?_⟩
  · rw [settleMonth_gRate, hr']
  · rw [hgr, hr']
    rfl

/-- The guardrails rates recorded along the loop form a step-bounded chain
inside the configured bounds. -/
theorem retireLoop_rateChain (c : RetireCtx) (hmode : c.mode = "guardrails")
    (hml : c.cfg.minRate ≤ c.cfg.maxRate) (hstep : c.cfg.step = 0.0025) :
    ∀ fuel i st st' r, st.gRate = some r → c.cfg.minRate ≤ r → r ≤ c.cfg.maxRate →
    retireLoop c i fuel st = .ok st' →
    ∃ t, st'.series = st.series ++ t ∧
      rateChainPct (r * 100) (c.cfg.minRate * 100) (c.cfg.maxRate * 100) t = true := by
  intro fuel
  induction fuel with
  | zero =>
    intro i st st' r hr hlo hhi he
    obtain rfl : st = st' := by simpa [retireLoop_zero] using he
    exact ⟨[], by simp, rfl⟩
  | succ fuel ih =>
    intro i st st' r hr hlo hhi he
    rw [retireLoop_succ] at he
    split at he
    · exact absurd he (by simp)
    · rename_i st1 heq
      obtain ⟨r', snap, hgr', hlo', hhi', habs, hser, hsnap⟩ :=
        monthStep_rate c i st st1 hmode hml hstep r hr hlo hhi heq
      have hconds : (decide (c.cfg.minRate * 100 ≤ r' * 100) &&
          decide (r' * 100 ≤ c.cfg.maxRate * 100) &&
          decide (|r' * 100 - r * 100| ≤ 1/4)) = true := by
        simp only [Bool.and_eq_true, decide_eq_true_eq]
        refine ⟨⟨by nlinarith, by nlinarith⟩, ?_⟩
        have hd : r' * 100 - r * 100 = (r' - r) * 100 := by ring
        rw [hd, abs_mul, show |(100:ℚ)| = 100 by norm_num]
        nlinarith
      split at he
      · rename_i hsucc1
        obtain ⟨t', hser', hchain'⟩ := ih (i+1) st1 st' r' hgr' hlo' hhi' he
        refine ⟨snap :: t', by rw [hser', hser]; simp, ?_⟩
        rw [rateChainPct, hsnap]
        simp only [hconds, hchain', Bool.and_self]
      · rename_i hsucc1
        obtain rfl : st1 = st' := by simpa using he
        refine ⟨[snap], hser, ?_⟩
        rw [rateChainPct, hsnap]
        simp only [hconds, Bool.and_true]
        rfl

/-- C4: in every guardrails run with `minRate ≤ maxRate`, the initial rate
(the clamped starting rate) lies within `[minRate, maxRate]`, and every
month's reported rate lies within those bounds and moves by at most one
step (0.0025, i.e. 0.25 percentage points) from the previous month's. -/
theorem spec_c4_guardrails_rate (p : RetireParams) (res : SimResult)
    (hmode : p.withdrawMode = "guardrails")
    (hmm : p.guardrailsMinPct ≤ p.guardrailsMaxPct)
    (h : runRetirementMonthly p = .ok res) :
    p.guardrailsMinPct ≤
      clamp (p.withdrawValue / 100) (p.guardrailsMinPct / 100) (p.guardrailsMaxPct / 100) * 100 ∧
    clamp (p.withdrawValue / 100) (p.guardrailsMinPct / 100) (p.guardrailsMaxPct / 100) * 100 ≤
      p.guardrailsMaxPct ∧
    rateChainPct
      (clamp (p.withdrawValue / 100) (p.guardrailsMinPct / 100) (p.guardrailsMaxPct / 100) * 100)
      p.guardrailsMinPct p.guardrailsMaxPct res.series = true := by
  obtain ⟨st', hst, rfl⟩ := run_ok_elim p res h
  obtain ⟨startIdx, gRate0, cfg, hfind, hbound, hsetup, hloop⟩ := runState_ok_elim p st' hst
  obtain ⟨hg, hmin, hmax, hstep, hv, hm0, hx0, hml⟩ :=
    guardrailsSetup_ok_elim p hmode gRate0 cfg hsetup
  have hq0 := clamp_mem (p.withdrawValue / 100) (p.guardrailsMinPct / 100)
    (p.guardrailsMaxPct / 100) hml
  have hcm : (retireCtxOf p cfg).mode = "guardrails" := by
    simpa [retireCtxOf] using hmode
  have hcc : (retireCtxOf p cfg).cfg = cfg := rfl
  obtain ⟨t, hser, hchain⟩ := retireLoop_rateChain (retireCtxOf p cfg) hcm
    (by rw [hcc, hmin, hmax]; exact hml) (by rw [hcc]; exact hstep)
    (p.durationYears * 12) startIdx (initialLoopSt p startIdx gRate0) st' _
    (by show gRate0 = _; rw [hg])
    (by rw [hcc, hmin]; exact hq0.1)
    (by rw [hcc, hmax]; exact hq0.2)
    hloop
  have h100 : (100:ℚ) ≠ 0 := by norm_num
  have hlo100 : p.guardrailsMinPct / 100 * 100 = p.guardrailsMinPct := div_mul_cancel₀ _ h100
  have hhi100 : p.guardrailsMaxPct / 100 * 100 = p.guardrailsMaxPct := div_mul_cancel₀ _ h100
  refine ⟨?_, ?_, ?_⟩
  · calc p.guardrailsMinPct = p.guardrailsMinPct / 100 * 100 := hlo100.symm
      _ ≤ _ := by nlinarith [hq0.1]
  · calc clamp (p.withdrawValue / 100) (p.guardrailsMinPct / 100) (p.guardrailsMaxPct / 100) * 100
        ≤ p.guardrailsMaxPct / 100 * 100 := by nlinarith [hq0.2]
      _ = p.guardrailsMaxPct := hhi100
  · have hserz : st'.series = t := by simpa [initialLoopSt] using hser
    show rateChainPct _ _ _ st'.series = true
    rw [hserz]
    rw [hcc, hmin, hmax] at hchain
    rw [hlo100, hhi100] at hchain
    exact hchain

/-- Witness for C4: a concrete one-year guardrails run starting at 5
percent with bounds 3 to 6 percent satisfies all three conclusions. -/
theorem spec_c4_guardrails_rate_witness :
    (3:ℚ) ≤ clamp ((5:ℚ) / 100) ((3:ℚ) / 100) ((6:ℚ) / 100) * 100 ∧
    clamp ((5:ℚ) / 100) ((3:ℚ) / 100) ((6:ℚ) / 100) * 100 ≤ 6 ∧
    rateChainPct (clamp ((5:ℚ) / 100) ((3:ℚ) / 100) ((6:ℚ) / 100) * 100)
      3 6 c4wRes.series = true := by
  exact spec_c4_guardrails_rate c4wParams c4wRes rfl (by norm_num [c4wParams])
    (by with_unfolding_all rfl)

/-- Concatenation characterisation of `nondecrQ`. -/
theorem nondecrQ_concat (l : List ℚ) (x : ℚ) :
    nondecrQ (l ++ [x]) = true ↔
      (nondecrQ l = true ∧ ∀ y, l.getLast? = some y → y ≤ x) := by
  induction l with
  | nil => simp [nondecrQ]
  | cons a t ih =>
    cases t with
    | nil =>
      simp [nondecrQ]
    | cons b t' =>
      rw [List.cons_append, List.cons_append]
      rw [show nondecrQ (a :: b :: (t' ++ [x])) =
        (decide (a ≤ b) && nondecrQ (b :: (t' ++ [x]))) from rfl]
      rw [show nondecrQ (a :: b :: t') = (decide (a ≤ b) && nondecrQ (b :: t')) from rfl]
      rw [Bool.and_eq_true, Bool.and_eq_true]
      rw [show (b :: (t' ++ [x])) = ((b :: t') ++ [x]) from rfl]
      rw [ih]
      constructor
      · rintro ⟨hab, hnd, hlast⟩
        exact ⟨⟨hab, hnd⟩, by
          intro y hy
          apply hlast
          rwa [List.getLast?_cons_cons] at hy⟩
      · rintro ⟨⟨hab, hnd⟩, hlast⟩
        exact ⟨hab, hnd, by
          intro y hy
          apply hlast
          rwa [List.getLast?_cons_cons]⟩

/-- Non-decreasing lists stay non-decreasing after dropping the last entry. -/
theorem nondecrQ_dropLast (l : List ℚ) (h : nondecrQ l = true) :
    nondecrQ l.dropLast = true := by
  by_cases hne : l = []
  · subst hne
    rfl
  · have hsplit : l.dropLast ++ [l.getLast hne] = l := List.dropLast_append_getLast hne
    rw [← hsplit] at h
    exact ((nondecrQ_concat _ _).mp h).1

/-- The clamped planned spending `max 0 (b*f)` is monotone in a
non-negative factor `f`, whatever the sign of the base `b`. -/
theorem maxQ_mul_mono (b f f' : ℚ) (h0 : 0 ≤ f) (hff : f ≤ f') :
    maxQ 0 (b * f) ≤ maxQ 0 (b * f') := by
  rw [maxQ_eq, maxQ_eq]
  rcases le_or_lt 0 b with hb | hb
  · exact max_le_max (le_refl 0) (mul_le_mul_of_nonneg_left hff hb)
  · have h1 : b * f ≤ 0 := mul_nonpos_of_nonpos_of_nonneg (le_of_lt hb) h0
    have h2 : b * f' ≤ 0 := mul_nonpos_of_nonpos_of_nonneg (le_of_lt hb) (le_trans h0 hff)
    rw [max_eq_left h1, max_eq_left h2]

/-- The percentOfCurrent branch of `computeWithdrawal` in a withdrawal
month: the planned amount is the base period withdrawal scaled by the
accumulated inflation factor, and the policy state is untouched. -/
theorem computeWithdrawal_poc (rate init bal : ℚ) (freq : String) (gRate : Option ℚ)
    (cfg : GuardrailsConfig) (ytd : ℚ) (base f : ℚ) :
    computeWithdrawal "percentOfCurrent" rate init bal freq gRate cfg ytd true base f =
      .ok ⟨base * f, none, gRate⟩ := by
  unfold computeWithdrawal
  simp

/-- With monthly frequency every month is a withdrawal month. -/
theorem isWAt_monthly (c : RetireCtx) (i : Nat) (hfreq : c.frequency = "monthly") :
    isWAt c i = true := by
  unfold isWAt
  rw [if_pos hfreq]

/-- One percentOfCurrent month: the recorded withdrawal is the clamped
planned amount, the inflation factor compounds afterwards, and in a month
that does not ruin the clamp is inactive. -/
theorem monthStep_poc (c : RetireCtx) (i : Nat) (st st' : LoopSt)
    (hmode : c.mode = "percentOfCurrent") (hfreq : c.frequency = "monthly")
    (h : monthStep c i st = .ok st') :
    ∃ snap, st'.series = st.series ++ [snap] ∧
      snap.withdrawal =
        wOf (bamAt c i st) ⟨c.inflationBasePeriodWithdraw * st.inflationFactor, none, st.gRate⟩ ∧
      st'.inflationFactor = st.inflationFactor * (1 + c.monthlyInfl) ∧
      (st'.success = true → (st.success = true ∧
        snap.withdrawal = maxQ 0 (c.inflationBasePeriodWithdraw * st.inflationFactor))) := by
  rw [monthStep_ok_iff] at h
  obtain ⟨hrate, res, hcw, rfl⟩ := h
  rw [hmode, isWAt_monthly c i hfreq, computeWithdrawal_poc] at hcw
  obtain rfl : (⟨c.inflationBasePeriodWithdraw * st.inflationFactor, none, st.gRate⟩ :
      WithdrawalResult) = res := by simpa using hcw
  refine ⟨_, settleMonth_series c st _ _ _ _ _, rfl, ?_, ?_⟩
  · rw [settleMonth_inflationFactor, if_pos hmode]
  · intro hsucc
    rw [settleMonth_success] at hsucc
    by_cases hr : bamAt c i st -
        wOf (bamAt c i st) ⟨c.inflationBasePeriodWithdraw * st.inflationFactor, none, st.gRate⟩ ≤ 0
    · rw [if_pos hr] at hsucc
      exact absurd hsucc (by simp)
    · rw [if_neg hr] at hsucc
      refine ⟨hsucc, ?_⟩
      show wOf _ _ = _
      unfold wOf minQ
      split
      · rename_i hmin
        exfalso
        apply hr
        have hwb : wOf (bamAt c i st)
            ⟨c.inflationBasePeriodWithdraw * st.inflationFactor, none, st.gRate⟩ =
            bamAt c i st := by
          unfold wOf minQ
          rw [if_pos hmin]
        rw [hwb]
        linarith
      · rfl

/-- Invariant of the loop under percentOfCurrent with monthly frequency and
non-negative monthly inflation: the recorded withdrawals are non-decreasing
except possibly at a final ruin entry. -/
theorem retireLoop_nondecr (c : RetireCtx) (hmode : c.mode = "percentOfCurrent")
    (hfreq : c.frequency = "monthly") (hmi : 0 ≤ c.monthlyInfl) :
    ∀ fuel i st st', st.success = true → 0 ≤ st.inflationFactor →
      nondecrQ (st.series.map Snapshot.withdrawal) = true →
      (∀ y, (st.series.map Snapshot.withdrawal).getLast? = some y →
        y ≤ maxQ 0 (c.inflationBasePeriodWithdraw * st.inflationFactor)) →
      retireLoop c i fuel st = .ok st' →
      nondecrQ ((st'.series.map Snapshot.withdrawal).dropLast) = true ∧
      (st'.success = true → nondecrQ (st'.series.map Snapshot.withdrawal) = true) := by
  intro fuel
  induction fuel with
  | zero =>
    intro i st st' hs hf hnd hlast he
    obtain rfl : st = st' := by simpa [retireLoop_zero] using he
    exact ⟨nondecrQ_dropLast _ hnd, fun _ => hnd⟩
  | succ fuel ih =>
    intro i st st' hs hf hnd hlast he
    rw [retireLoop_succ] at he
    split at he
    · exact absurd he (by simp)
    · rename_i st1 heq
      obtain ⟨snap, hser, hw, hinfl, hsucc⟩ := monthStep_poc c i st st1 hmode hfreq heq
      have hmap : st1.series.map Snapshot.withdrawal =
          (st.series.map Snapshot.withdrawal) ++ [snap.withdrawal] := by
        rw [hser]
        simp
      split at he
      · rename_i hsucc1
        obtain ⟨hsold, hwmax⟩ := hsucc hsucc1
        have hf1 : 0 ≤ st1.inflationFactor := by
          rw [hinfl]
          have h1mi : (0:ℚ) ≤ 1 + c.monthlyInfl := by linarith
          positivity
        have hnd1 : nondecrQ (st1.series.map Snapshot.withdrawal) = true := by
          rw [hmap, nondecrQ_concat]
          refine ⟨hnd, fun y hy => ?_⟩
          rw [hwmax]
          exact hlast y hy
        have hlast1 : ∀ y, (st1.series.map Snapshot.withdrawal).getLast? = some y →
            y ≤ maxQ 0 (c.inflationBasePeriodWithdraw * st1.inflationFactor) := by
          intro y hy
          rw [hmap, List.getLast?_concat] at hy
          obtain rfl : snap.withdrawal = y := by simpa using hy
          rw [hwmax, hinfl]
          apply maxQ_mul_mono _ _ _ hf
          nlinarith
        exact ih (i+1) st1 st' hsucc1 hf1 hnd1 hlast1 he
      · rename_i hsucc1
        obtain rfl : st1 = st' := by simpa using he
        constructor
        · rw [hmap, List.dropLast_concat]
          exact hnd
        · intro hcontra
          exact absurd hcontra hsucc1

/-- C3 (amended): the monthly inflation rate derived from a non-negative
annual inflation percentage is non-negative, and under the
InflationAdjustedFixed policy (mode percentOfCurrent) with monthly
frequency and a non-negative monthly inflation rate the recorded withdrawal
amounts are monotonically non-decreasing except possibly at the final entry
of a ruined run, where the withdrawal is clamped to the remaining balance;
for a successful run the entire sequence is non-decreasing.  (The original
claim, non-decreasing regardless of the balance trajectory, fails at the
ruin clamp; see the counterexample.) -/
theorem spec_c3_inflation_monotone :
    (∀ a : ℝ, 0 ≤ a → 0 ≤ monthlyInflationRateFromAnnualPct a) ∧
    ∀ p res, p.withdrawMode = "percentOfCurrent" → p.withdrawFrequency = "monthly" →
      0 ≤ p.monthlyInfl → runRetirementMonthly p = .ok res →
      nondecrQ ((res.series.map Snapshot.withdrawal).dropLast) = true ∧
      (res.success = true → nondecrQ (res.series.map Snapshot.withdrawal) = true) := by
  constructor
  · intro a ha
    unfold monthlyInflationRateFromAnnualPct
    dsimp only []
    have h100 : (0:ℝ) ≤ a / 100 := by positivity
    rw [if_neg (not_lt.mpr (le_trans (by norm_num) h100))]
    have h1 : (1:ℝ) ≤ 1 + a / 100 := by linarith
    have h2 := Real.one_le_rpow h1 (by norm_num : (0:ℝ) ≤ 1/12)
    linarith
  · intro p res hmode hfreq hmi h
    obtain ⟨st', hst, rfl⟩ := run_ok_elim p res h
    obtain ⟨startIdx, gRate0, cfg, hfind, hbound, hsetup, hloop⟩ := runState_ok_elim p st' hst
    exact retireLoop_nondecr (retireCtxOf p cfg)
      (by simpa [retireCtxOf] using hmode) (by simpa [retireCtxOf] using hfreq)
      (by simpa [retireCtxOf] using hmi)
      (p.durationYears * 12) startIdx (initialLoopSt p startIdx gRate0) st'
      rfl (by norm_num [initialLoopSt]) (by rfl)
      (by intro y hy; simp [initialLoopSt] at hy) hloop

/-- Counterexample to C3 as stated: with a zero annual inflation assumption
(whose derived monthly rate is exactly 0) the concrete ruin run
`c3cexParams` records withdrawals 60 then 40 — a strictly decreasing
sequence — because the ruin month's withdrawal is clamped to the remaining
balance. -/
theorem spec_c3_inflation_monotone_cex :
    monthlyInflationRateFromAnnualPct 0 = 0 ∧
    (runRetirementMonthly c3cexParams).map
      (fun r => nondecrQ (r.series.map Snapshot.withdrawal)) = .ok false := by
  constructor
  · unfold monthlyInflationRateFromAnnualPct
    dsimp only []
    rw [if_neg (by norm_num)]
    norm_num
  · with_unfolding_all rfl

/-- Witness for C3 (amended) on a surviving concrete run. -/
theorem spec_c3_inflation_monotone_witness :
    (0:ℝ) ≤ monthlyInflationRateFromAnnualPct 3 ∧
    nondecrQ ((c3wRes.series.map Snapshot.withdrawal).dropLast) = true ∧
    nondecrQ (c3wRes.series.map Snapshot.withdrawal) = true := by
  obtain ⟨hnd, himp⟩ := spec_c3_inflation_monotone.2 c3wParams c3wRes rfl rfl (le_refl 0)
    (by with_unfolding_all rfl)
  exact ⟨spec_c3_inflation_monotone.1 3 (by norm_num), hnd, himp (by with_unfolding_all rfl)⟩

/-- Pointwise comparison respects concatenation. -/
theorem lePointwise_append (l1 r1 l2 r2 : List ℚ) (h1 : lePointwise l1 r1 = true)
    (h2 : lePointwise l2 r2 = true) : lePointwise (l1 ++ l2) (r1 ++ r2) = true := by
  induction l1 generalizing r1 with
  | nil =>
    cases r1 with
    | nil => simpa using h2
    | cons b u => exact absurd h1 (by simp [lePointwise])
  | cons a t ih =>
    cases r1 with
    | nil => exact absurd h1 (by simp [lePointwise])
    | cons b u =>
      rw [lePointwise, Bool.and_eq_true] at h1
      rw [List.cons_append, List.cons_append, lePointwise, Bool.and_eq_true]
      exact ⟨h1.1, ih u h1.2⟩

/-- When every close is finite and positive, every built return is at least
-1 (so a month's market move cannot turn a non-negative balance negative). -/
theorem buildReturns_ge_neg_one (monthly : List PricePoint)
    (hpos : ∀ pt ∈ monthly, ∃ q, pt.close = some q ∧ 0 < q) :
    ∀ i, (-1 : ℚ) ≤ (buildReturns monthly).getD i 0 := by
  intro i
  by_cases hi : i < monthly.length
  · rw [buildReturns_getD monthly i hi]
    by_cases h0 : i = 0
    · rw [if_pos h0]
      norm_num
    · rw [if_neg h0]
      have hi1 : i - 1 < monthly.length := lt_of_le_of_lt (Nat.sub_le i 1) hi
      rw [List.getElem?_map, List.getElem?_map,
        List.getElem?_eq_getElem hi1, List.getElem?_eq_getElem hi]
      simp only [Option.map_some']
      obtain ⟨qp, hqp, hqppos⟩ := hpos (monthly[i-1]) (List.getElem_mem hi1)
      obtain ⟨qc, hqc, hqcpos⟩ := hpos (monthly[i]) (List.getElem_mem hi)
      rw [hqp, hqc]
      show (-1:ℚ) ≤ if 0 < qp then qc / qp - 1 else 0
      rw [if_pos hqppos]
      have hdiv : 0 < qc / qp := div_pos hqcpos hqppos
      linarith
  · have hlen : (buildReturns monthly).length ≤ i := by
      unfold buildReturns
      simpa using le_of_not_lt hi
    rw [List.getD_eq_default _ _ hlen]
    norm_num

/-- One month appends one withdrawal and one post-market balance; the
withdrawal never exceeds that balance, total withdrawn accumulates it, and
under non-negative balance and returns at least -1 it is non-negative. -/
theorem monthStep_c7 (c : RetireCtx) (i : Nat) (st st' : LoopSt)
    (h : monthStep c i st = .ok st') :
    ∃ snap, st'.series = st.series ++ [snap] ∧
      st'.bamTrace = st.bamTrace ++ [bamAt c i st] ∧
      snap.withdrawal ≤ bamAt c i st ∧
      st'.totalWithdrawn = st.totalWithdrawn + snap.withdrawal ∧
      (0 ≤ st.balance → -1 ≤ c.returns.getD i 0 → 0 ≤ snap.withdrawal) ∧
      0 ≤ st'.balance := by
  rw [monthStep_ok_iff] at h
  obtain ⟨hrate, res, hcw, rfl⟩ := h
  refine ⟨_, settleMonth_series c st _ _ _ _ res, settleMonth_bamTrace c st _ _ _ _ res,
    wOf_le_bam _ res, settleMonth_totalWithdrawn c st _ _ _ _ res, ?_, ?_⟩
  · intro hb hr
    have hbam : 0 ≤ bamAt c i st := by
      unfold bamAt
      have h1r : (0:ℚ) ≤ 1 + c.returns.getD i 0 := by linarith
      exact mul_nonneg hb h1r
    exact wOf_nonneg _ res hbam
  · rw [settleMonth_balance]
    exact b3Of_nonneg _ res

/-- Loop-level accumulation of the per-month facts of `monthStep_c7`. -/
theorem retireLoop_c7 (c : RetireCtx) : ∀ fuel i st st',
    retireLoop c i fuel st = .ok st' →
    ∃ t bs, st'.series = st.series ++ t ∧ st'.bamTrace = st.bamTrace ++ bs ∧
      st'.totalWithdrawn = st.totalWithdrawn + (t.map Snapshot.withdrawal).sum ∧
      lePointwise (t.map Snapshot.withdrawal) bs = true ∧
      ((0 ≤ st.balance ∧ ∀ j, -1 ≤ c.returns.getD j 0) → ∀ s ∈ t, 0 ≤ s.withdrawal) := by
  intro fuel
  induction fuel with
  | zero =>
    intro i st st' he
    obtain rfl : st = st' := by simpa [retireLoop_zero] using he
    exact ⟨[], [], by simp, by simp, by simp, rfl, by simp⟩
  | succ fuel ih =>
    intro i st st' he
    rw [retireLoop_succ] at he
    split at he
    · exact absurd he (by simp)
    · rename_i st1 heq
      obtain ⟨snap, hser, hbam, hwle, htot, hwnn, hbal⟩ := monthStep_c7 c i st st1 heq
      have hone : lePointwise [snap.withdrawal] [bamAt c i st] = true := by
        rw [lePointwise, Bool.and_eq_true]
        exact ⟨decide_eq_true hwle, rfl⟩
      split at he
      · rename_i hsucc1
        obtain ⟨t', bs', hser', hbam', htot', hlep', hnn'⟩ := ih (i+1) st1 st' he
        refine ⟨snap :: t', bamAt c i st :: bs', ?_, ?_, ?_, ?_, ?_⟩
        · rw [hser', hser]
          simp
        · rw [hbam', hbam]
          simp
        · rw [htot', htot]
          simp only [List.map_cons, List.sum_cons]
          ring
        · have hcat := lePointwise_append [snap.withdrawal] [bamAt c i st]
            (t'.map Snapshot.withdrawal) bs' hone hlep'
          simpa using hcat
        · rintro ⟨hb0, hrall⟩ s hs
          rcases List.mem_cons.mp hs with rfl | hs'
          · exact hwnn hb0 (hrall i)
          · exact hnn' ⟨hbal, hrall⟩ s hs'
      · rename_i hsucc1
        obtain rfl : st1 = st' := by simpa using he
        refine ⟨[snap], [bamAt c i st], hser, hbam, by simpa using htot, hone, ?_⟩
        rintro ⟨hb0, hrall⟩ s hs
        obtain rfl := List.mem_singleton.mp hs
        exact hwnn hb0 (hrall i)

/-- C7 (amended): `totalWithdrawn` equals the exact sum of the recorded
withdrawals, and each month's withdrawal is at most that month's
post-market balance (the `bamTrace` ghost), always; the lower bound 0 holds
whenever every close is finite and positive and the initial balance is
non-negative.  (As stated, the claim fails for series containing
non-positive closes, where a below--100-percent return makes the balance,
and hence the clamped withdrawal, negative; see the counterexample.) -/
theorem spec_c7_totalWithdrawn_bounds :
    (∀ p res, runRetirementMonthly p = .ok res →
      res.totalWithdrawn = (res.series.map Snapshot.withdrawal).sum) ∧
    (∀ p st', runRetirementMonthlyState p = .ok st' →
      lePointwise (st'.series.map Snapshot.withdrawal) st'.bamTrace = true ∧
      ((∀ pt ∈ p.monthly, ∃ q, pt.close = some q ∧ 0 < q) → 0 ≤ p.initialBalance →
        ∀ k, k < st'.series.length → 0 ≤ (st'.series.getD k dfltSnap).withdrawal)) := by
  constructor
  · intro p res h
    obtain ⟨st', hst, rfl⟩ := run_ok_elim p res h
    obtain ⟨startIdx, gRate0, cfg, hfind, hbound, hsetup, hloop⟩ := runState_ok_elim p st' hst
    obtain ⟨t, bs, hser, hbam, htot, hlep, hnn⟩ := retireLoop_c7 _ _ _ _ _ hloop
    show st'.totalWithdrawn = (st'.series.map Snapshot.withdrawal).sum
    rw [htot, hser]
    simp [initialLoopSt]
  · intro p st' hst
    obtain ⟨startIdx, gRate0, cfg, hfind, hbound, hsetup, hloop⟩ := runState_ok_elim p st' hst
    obtain ⟨t, bs, hser, hbam, htot, hlep, hnn⟩ := retireLoop_c7 _ _ _ _ _ hloop
    have hsert : st'.series = t := by simpa [initialLoopSt] using hser
    have hbamt : st'.bamTrace = bs := by simpa [initialLoopSt] using hbam
    constructor
    · rw [hsert, hbamt]
      exact hlep
    · intro hpos hinit k hk
      have hrets : ∀ j, (-1:ℚ) ≤ (retireCtxOf p cfg).returns.getD j 0 := by
        intro j
        show (-1:ℚ) ≤ (buildReturns p.monthly).getD j 0
        exact buildReturns_ge_neg_one p.monthly hpos j
      have hmem : (st'.series.getD k dfltSnap) ∈ st'.series := by
        rw [List.getD_eq_getElem st'.series dfltSnap hk]
        exact List.getElem_mem hk
      rw [hsert] at hmem ⊢
      exact hnn ⟨by simpa [initialLoopSt] using hinit, hrets⟩ _ hmem

/-- Counterexample to C7 as stated: over a series whose second close is
negative, the concrete run records a negative month-two withdrawal
(-299/6), outside `[0, balanceAfterMarketReturn]`. -/
theorem spec_c7_totalWithdrawn_bounds_cex :
    (runRetirementMonthly c7cexParams).map
      (fun r => (r.series.map Snapshot.withdrawal).getD 1 0) = .ok (-299/6) ∧
    (-299/6 : ℚ) < 0 := by
  constructor
  · with_unfolding_all rfl
  · norm_num

/-- Witness for C7 on a surviving all-positive-closes run. -/
theorem spec_c7_totalWithdrawn_bounds_witness :
    c3wRes.totalWithdrawn = (c3wRes.series.map Snapshot.withdrawal).sum ∧
    lePointwise (c7wSt.series.map Snapshot.withdrawal) c7wSt.bamTrace = true ∧
    0 ≤ (c7wSt.series.getD 0 dfltSnap).withdrawal := by
  have h2 := spec_c7_totalWithdrawn_bounds.2 c3wParams c7wSt (by with_unfolding_all rfl)
  refine ⟨spec_c7_totalWithdrawn_bounds.1 c3wParams c3wRes (by with_unfolding_all rfl),
    h2.1, ?_⟩
  have hlen : c7wSt.series.length = 12 := by with_unfolding_all rfl
  refine h2.2 ?_ (by norm_num [c3wParams]) 0 (by omega)
  intro pt hpt
  simp only [c3wParams, mthsConst13, List.mem_map] at hpt
  obtain ⟨k, hk, rfl⟩ := hpt
  exact ⟨100, rfl, by norm_num⟩

/-- The retirement loop folds each month's clamped post-withdrawal balance
into the running extrema. -/
theorem retireLoop_extrema (c : RetireCtx) : ∀ fuel i st st',
    retireLoop c i fuel st = .ok st' →
    ∃ t, st'.series = st.series ++ t ∧
      st'.highestBalance = (t.map Snapshot.value).foldl maxQ st.highestBalance ∧
      st'.lowestBalance = (t.map Snapshot.value).foldl minQ st.lowestBalance := by
  intro fuel
  induction fuel with
  | zero =>
    intro i st st' he
    obtain rfl : st = st' := by simpa [retireLoop_zero] using he
    exact ⟨[], by simp, rfl, rfl⟩
  | succ fuel ih =>
    intro i st st' he
    rw [retireLoop_succ] at he
    split at he
    · exact absurd he (by simp)
    · rename_i st1 heq
      rw [monthStep_ok_iff] at heq
      obtain ⟨hrate, res, hcw, rfl⟩ := heq
      split at he
      · rename_i hsucc1
        obtain ⟨t', hser', hh', hl'⟩ := ih (i+1) _ st' he
        refine ⟨⟨(ptAt c i).month, b3Of (bamAt c i st) res, wOf (bamAt c i st) res,
          res.guardrailsRate.map (fun r => r * 100),
          if c.mode = "percentOfCurrent" then some st.inflationFactor else none⟩ :: t',
          ?_, ?_, ?_⟩
        · rw [hser', settleMonth_series]
          simp
        · rw [hh']
          rfl
        · rw [hl']
          rfl
      · rename_i hsucc1
        obtain rfl :
            settleMonth c st (ptAt c i) (cyAt c i st) (ysbAt c i st) (bamAt c i st) res = st' := by
          simpa using he
        refine ⟨[_], settleMonth_series c st _ _ _ _ res, ?_, ?_⟩
        · rfl
        · rfl

/-- Base equation of the sweep inner loop. -/
theorem sweepLoop_zero (c : RetireCtx) (i : Nat) (st : SweepSt) :
    sweepLoop c i 0 st = .ok st := rfl

/-- Unfolding equation of the sweep inner loop. -/
theorem sweepLoop_succ (c : RetireCtx) (i fuel : Nat) (st : SweepSt) :
    sweepLoop c i (fuel + 1) st =
      match sweepStep c i st with
      | .error e => .error e
      | .ok st' => if st'.success then sweepLoop c (i+1) fuel st' else .ok st' := rfl

/-- One sweep month either survives — recording its post-withdrawal balance
in the extrema and the ghost trace — or ruins, recording 0 only in the
trace and leaving the extrema untouched. -/
theorem sweepStep_ok_elim (c : RetireCtx) (i : Nat) (st st' : SweepSt)
    (h : sweepStep c i st = .ok st') :
    (st'.success = st.success ∧ ∃ b, st'.trace = st.trace ++ [b] ∧
      st'.highest = maxQ st.highest b ∧ st'.lowest = minQ st.lowest b) ∨
    (st'.success = false ∧ st'.trace = st.trace ++ [0] ∧
      st'.highest = st.highest ∧ st'.lowest = st.lowest) := by
  unfold sweepStep at h
  split at h
  · exact absurd h (by simp)
  · rename_i res hcw
    dsimp only [] at h
    split at h
    · rename_i hruin
      right
      obtain rfl : _ = st' := by simpa using h
      exact ⟨rfl, rfl, rfl, rfl⟩
    · rename_i hlive
      left
      obtain rfl : _ = st' := by simpa using h
      exact ⟨rfl, sbamAt c i st - wOf (sbamAt c i st) res, rfl, rfl, rfl⟩

/-- Extrema of one sweep inner run: folded over the recorded balances of
all surviving months; the ruin month's 0 appears in the trace but not in
the extrema. -/
theorem sweepLoop_extrema (c : RetireCtx) : ∀ fuel i st st', st.success = true →
    sweepLoop c i fuel st = .ok st' →
    ∃ t, st'.trace = st.trace ++ t ∧
      ((st'.success = true ∧ st'.highest = t.foldl maxQ st.highest ∧
        st'.lowest = t.foldl minQ st.lowest) ∨
       (st'.success = false ∧ ∃ t0, t = t0 ++ [0] ∧
        st'.highest = t0.foldl maxQ st.highest ∧ st'.lowest = t0.foldl minQ st.lowest)) := by
  intro fuel
  induction fuel with
  | zero =>
    intro i st st' hs he
    obtain rfl : st = st' := by simpa [sweepLoop_zero] using he
    exact ⟨[], by simp, Or.inl ⟨hs, rfl, rfl⟩⟩
  | succ fuel ih =>
    intro i st st' hs he
    rw [sweepLoop_succ] at he
    split at he
    · exact absurd he (by simp)
    · rename_i st1 heq
      rcases sweepStep_ok_elim c i st st1 heq with
        ⟨hsu, b, htr, hh, hl⟩ | ⟨hsu, htr, hh, hl⟩
      · split at he
        · rename_i hsucc1
          obtain ⟨t', htr', hres⟩ := ih (i+1) st1 st' hsucc1 he
          refine ⟨b :: t', by rw [htr', htr]; simp, ?_⟩
          rcases hres with ⟨h1, h2, h3⟩ | ⟨h1, t0, rfl, h3, h4⟩
          · exact Or.inl ⟨h1, by rw [h2, hh]; rfl, by rw [h3, hl]; rfl⟩
          · exact Or.inr ⟨h1, b :: t0, by simp, by rw [h3, hh]; rfl, by rw [h4, hl]; rfl⟩
        · rename_i hsucc1
          rw [hsu, hs] at hsucc1
          exact absurd rfl hsucc1
      · split at he
        · rename_i hsucc1
          rw [hsu] at hsucc1
          exact absurd hsucc1 (by simp)
        · rename_i hsucc1
          obtain rfl : st1 = st' := by simpa using he
          exact ⟨[0], htr, Or.inr ⟨hsu, [], by simp, hh, hl⟩⟩

/-- C5 (amended): for retirement runs, `highestBalance`/`lowestBalance` are
exactly the extrema over the initial balance and every month's
post-withdrawal (clamped) balance, the ruin month's 0 included; for sweep
runs the inner loop's extrema cover the initial balance and every month
completed without ruin, but exclude the ruin month's 0, whose balance
appears only in the ghost trace.  (The original claim — ruin month included
in the sweep extrema too — is false; see the counterexample.) -/
theorem spec_c5_extrema :
    (∀ p res, runRetirementMonthly p = .ok res →
      res.highestBalance = (res.series.map Snapshot.value).foldl maxQ p.initialBalance ∧
      res.lowestBalance = (res.series.map Snapshot.value).foldl minQ p.initialBalance) ∧
    (∀ c fuel i st st', st.success = true → sweepLoop c i fuel st = .ok st' →
      ∃ t, st'.trace = st.trace ++ t ∧
        ((st'.success = true ∧ st'.highest = t.foldl maxQ st.highest ∧
          st'.lowest = t.foldl minQ st.lowest) ∨
         (st'.success = false ∧ ∃ t0, t = t0 ++ [0] ∧
          st'.highest = t0.foldl maxQ st.highest ∧ st'.lowest = t0.foldl minQ st.lowest))) := by
  constructor
  · intro p res h
    obtain ⟨st', hst, rfl⟩ := run_ok_elim p res h
    obtain ⟨startIdx, gRate0, cfg, hfind, hbound, hsetup, hloop⟩ := runState_ok_elim p st' hst
    obtain ⟨t, hser, hh, hl⟩ := retireLoop_extrema _ _ _ _ _ hloop
    have hsert : st'.series = t := by simpa [initialLoopSt] using hser
    constructor
    · show st'.highestBalance = (st'.series.map Snapshot.value).foldl maxQ p.initialBalance
      rw [hsert, hh]
      rfl
    · show st'.lowestBalance = (st'.series.map Snapshot.value).foldl minQ p.initialBalance
      rw [hsert, hl]
      rfl
  · intro c fuel i st st' hs he
    exact sweepLoop_extrema c fuel i st st' hs he

/-- Counterexample to C5 as stated: in the concrete sweep a run ruins in
its first month (post-withdrawal balance 0, visible in the ghost trace),
yet the reported `lowestBalance` is 100, not the minimum 0 over initial and
post-withdrawal balances. -/
theorem spec_c5_extrema_cex :
    (runRetirementSuccessByStartYear c5cexSweep).map
      (fun o => o.results.map (fun r => (r.passed, r.lowestBalance, r.highestBalance))) =
      .ok [(false, 100, 100)] ∧
    (sweepLoop (sweepCtxOf c5cexSweep) 0 12
      (sweepInitSt (sweepCtxOf c5cexSweep) none 0)).map
      (fun s => (s.trace, s.lowest)) = .ok ([0], 100) := by
  constructor
  · with_unfolding_all rfl
  · with_unfolding_all rfl

/-- Witness for C5 on surviving runs of both kinds. -/
theorem spec_c5_extrema_witness :
    c3wRes.highestBalance = (c3wRes.series.map Snapshot.value).foldl maxQ 100 ∧
    c5wInner.success = true ∧
    c5wInner.highest = c5wInner.trace.foldl maxQ 100 ∧
    c5wInner.lowest = c5wInner.trace.foldl minQ 100 := by
  obtain ⟨h1, _⟩ := spec_c5_extrema.1 c3wParams c3wRes (by with_unfolding_all rfl)
  obtain ⟨t, htr, hres⟩ := spec_c5_extrema.2 (sweepCtxOf c5wSweep) 12 0
    (sweepInitSt (sweepCtxOf c5wSweep) none 0) c5wInner rfl (by with_unfolding_all rfl)
  have hsucc : c5wInner.success = true := by with_unfolding_all rfl
  rcases hres with ⟨hs, hh, hl⟩ | ⟨hs, _⟩
  · have ht : c5wInner.trace = t := by simpa [sweepInitSt] using htr
    exact ⟨h1, hsucc, by rw [ht, hh]; rfl, by rw [ht, hl]; rfl⟩
  · rw [hsucc] at hs
    exact absurd hs (by simp)

/-- `computeWithdrawal` never throws for a recognised policy tag. -/
theorem computeWithdrawal_recognized_ok (mode : String) (rate init bal : ℚ)
    (freq : String) (gRate : Option ℚ) (cfg : GuardrailsConfig) (ytd : ℚ) (isW : Bool)
    (base f : ℚ)
    (hmode : mode = "percentOfInitial" ∨ mode = "percentOfCurrent" ∨ mode = "guardrails") :
    ∃ res, computeWithdrawal mode rate init bal freq gRate cfg ytd isW base f = .ok res := by
  unfold computeWithdrawal
  by_cases hw : isW = false
  · rw [if_pos hw]
    exact ⟨_, rfl⟩
  · rw [if_neg hw]
    rcases hmode with h | h | h <;> subst h <;> simp

/-- With a positive withdraw rate and a recognised mode one month never
throws. -/
theorem monthStep_no_error (c : RetireCtx) (i : Nat) (st : LoopSt)
    (hrate : 0 < c.baseRateDecimal)
    (hmode : c.mode = "percentOfInitial" ∨ c.mode = "percentOfCurrent" ∨ c.mode = "guardrails") :
    ∃ st', monthStep c i st = .ok st' := by
  obtain ⟨res, hres⟩ := computeWithdrawal_recognized_ok c.mode c.baseRateDecimal
    c.initialBalance (bamAt c i st) c.frequency st.gRate c.cfg (ytdAt c i st) (isWAt c i)
    c.inflationBasePeriodWithdraw st.inflationFactor hmode
  unfold monthStep
  rw [if_pos hrate, hres]
  exact ⟨_, rfl⟩

/-- Under a valid configuration the retirement loop itself never throws. -/
theorem retireLoop_no_error (c : RetireCtx)
    (hrate : 0 < c.baseRateDecimal)
    (hmode : c.mode = "percentOfInitial" ∨ c.mode = "percentOfCurrent" ∨ c.mode = "guardrails") :
    ∀ fuel i st, ∃ st', retireLoop c i fuel st = .ok st' := by
  intro fuel
  induction fuel with
  | zero => intro i st; exact ⟨st, rfl⟩
  | succ fuel ih =>
    intro i st
    obtain ⟨st1, h1⟩ := monthStep_no_error c i st hrate hmode
    rw [retireLoop_succ, h1]
    show ∃ st', (if st1.success = true then retireLoop c (i+1) fuel st1 else .ok st1) = .ok st'
    by_cases hs : st1.success = true
    · obtain ⟨st', h2⟩ := ih (i+1) st1
      rw [if_pos hs]
      exact ⟨st', h2⟩
    · rw [if_neg hs]
      exact ⟨st1, rfl⟩

/-- The projection to `SimResult` preserves failure. -/
theorem runRetirementMonthly_toOption_none (p : RetireParams) :
    (runRetirementMonthly p).toOption = none ↔
      (runRetirementMonthlyState p).toOption = none := by
  unfold runRetirementMonthly
  cases runRetirementMonthlyState p <;> simp [Except.map, Except.toOption]

/-- With valid guardrails parameters (when applicable) and a positive
withdraw value, the guardrails setup succeeds. -/
theorem guardrailsSetup_ok_exists (p : RetireParams)
    (hv : 0 < p.withdrawValue)
    (hg : p.withdrawMode = "guardrails" →
      0 ≤ p.guardrailsMinPct ∧ 0 < p.guardrailsMaxPct ∧
      p.guardrailsMinPct ≤ p.guardrailsMaxPct) :
    ∃ g cfg, guardrailsSetup p = .ok (g, cfg) := by
  unfold guardrailsSetup
  by_cases hm : p.withdrawMode = "guardrails"
  · rw [if_pos hm]
    obtain ⟨h1, h2, h3⟩ := hg hm
    dsimp only []
    have hsr : ¬ (p.withdrawValue / 100 ≤ 0) :=
      not_le.mpr (div_pos hv (by norm_num))
    have hmr : ¬ (p.guardrailsMinPct / 100 < 0) :=
      not_lt.mpr (div_nonneg h1 (by norm_num))
    have hxr : ¬ (p.guardrailsMaxPct / 100 ≤ 0) :=
      not_le.mpr (div_pos h2 (by norm_num))
    have hmm2 : ¬ (p.guardrailsMinPct / 100 > p.guardrailsMaxPct / 100) :=
      not_lt.mpr ((div_le_div_iff_of_pos_right (by norm_num : (0:ℚ) < 100)).mpr h3)
    rw [if_neg hsr, if_neg hmr, if_neg hxr, if_neg hmm2]
    exact ⟨_, _, rfl⟩
  · rw [if_neg hm]
    exact ⟨_, _, rfl⟩

/-- C2 (amended): under a valid policy configuration (positive withdraw
rate, recognised mode, valid guardrails parameters when applicable),
`runRetirementMonthly` fails if and only if the start month is absent or
`startIndex + durationYears*12` exceeds `monthly.length - 1` — i.e. the
source requires one month of data beyond the simulated window, one more
than the claim's `startIndex + years*12 > length`.  Both checks precede the
loop, so failure is decided before any month is simulated. -/
theorem spec_c2_data_errors (p : RetireParams)
    (hv : 0 < p.withdrawValue)
    (hmode : p.withdrawMode = "percentOfInitial" ∨ p.withdrawMode = "percentOfCurrent" ∨
      p.withdrawMode = "guardrails")
    (hg : p.withdrawMode = "guardrails" →
      0 ≤ p.guardrailsMinPct ∧ 0 < p.guardrailsMaxPct ∧
      p.guardrailsMinPct ≤ p.guardrailsMaxPct) :
    (runRetirementMonthly p).toOption = none ↔
      (findMonthIndex p.monthly p.startMonth = none ∨
       ∃ si, findMonthIndex p.monthly p.startMonth = some si ∧
         ((si + p.durationYears * 12 : Nat) : Int) > (p.monthly.length : Int) - 1) := by
  rw [runRetirementMonthly_toOption_none]
  unfold runRetirementMonthlyState
  cases hfind : findMonthIndex p.monthly p.startMonth with
  | none => simp [Except.toOption]
  | some si =>
    dsimp only []
    by_cases hb : ((si + p.durationYears * 12 : Nat) : Int) > (p.monthly.length : Int) - 1
    · rw [if_pos hb]
      simp only [Except.toOption]
      constructor
      · intro _
        exact Or.inr ⟨si, rfl, hb⟩
      · intro _
        trivial
    · rw [if_neg hb]
      obtain ⟨g, cfg, hsetup⟩ := guardrailsSetup_ok_exists p hv hg
      rw [hsetup]
      have hrate : 0 < (retireCtxOf p cfg).baseRateDecimal := by
        show 0 < p.withdrawValue / 100
        exact div_pos hv (by norm_num)
      have hmode2 : (retireCtxOf p cfg).mode = "percentOfInitial" ∨
          (retireCtxOf p cfg).mode = "percentOfCurrent" ∨
          (retireCtxOf p cfg).mode = "guardrails" := hmode
      obtain ⟨st', hloop⟩ := retireLoop_no_error (retireCtxOf p cfg) hrate hmode2
        (p.durationYears * 12) si (initialLoopSt p si g)
      dsimp only []
      rw [hloop]
      simp only [Except.toOption]
      constructor
      · intro hcontra
        exact absurd hcontra (by simp)
      · rintro (hcase | ⟨si2, hsi2, hb2⟩)
        · exact absurd hcase (by simp)
        · obtain rfl : si = si2 := by simpa using hsi2
          exact absurd hb2 hb

/-- Counterexample to C2 as stated: twelve months of data, start at index
0, one-year duration — the claim's condition `0 + 12 > 12` is false, so the
claim promises success, but the source throws (its check is against
`length - 1`). -/
theorem spec_c2_data_errors_cex :
    findMonthIndex c2cexMonthly ⟨2020, 1⟩ = some 0 ∧
    c2cexMonthly.length = 12 ∧
    ¬ (((0 + 1 * 12 : Nat) : Int) > (12 : Int)) ∧
    (runRetirementMonthly c2cexParams).toOption = none := by
  refine ⟨by with_unfolding_all rfl, by with_unfolding_all rfl, by norm_num, ?_⟩
  with_unfolding_all rfl

/-- Witness for C2 (amended) at a concrete input where the amended bound is
violated and the run indeed fails. -/
theorem spec_c2_data_errors_witness :
    (runRetirementMonthly c2cexParams).toOption = none ∧
    findMonthIndex c2cexMonthly ⟨2020, 1⟩ = some 0 ∧
    ((0 + 1 * 12 : Nat) : Int) > (12 : Int) - 1 := by
  have hiff := spec_c2_data_errors c2cexParams (by norm_num [c2cexParams]) (Or.inl rfl)
    (by intro hgg; simp [c2cexParams] at hgg)
  refine ⟨hiff.mpr (Or.inr ⟨0, by with_unfolding_all rfl, ?_⟩),
    by with_unfolding_all rfl, by norm_num⟩
  have hlen : c2cexParams.monthly.length = 12 := by with_unfolding_all rfl
  rw [hlen]
  norm_num [c2cexParams]

/-- With guardrails mode and min above max, setup always throws (whichever
of its four checks fires first). -/
theorem guardrailsSetup_error_of_minmax (p : RetireParams)
    (hmode : p.withdrawMode = "guardrails") (h : p.guardrailsMaxPct < p.guardrailsMinPct) :
    ∃ e, guardrailsSetup p = .error e := by
  unfold guardrailsSetup
  rw [if_pos hmode]
  dsimp only []
  by_cases h1 : p.withdrawValue / 100 ≤ 0
  · rw [if_pos h1]
    exact ⟨_, rfl⟩
  · rw [if_neg h1]
    by_cases h2 : p.guardrailsMinPct / 100 < 0
    · rw [if_pos h2]
      exact ⟨_, rfl⟩
    · rw [if_neg h2]
      by_cases h3 : p.guardrailsMaxPct / 100 ≤ 0
      · rw [if_pos h3]
        exact ⟨_, rfl⟩
      · rw [if_neg h3]
        have h4 : p.guardrailsMinPct / 100 > p.guardrailsMaxPct / 100 :=
          (div_lt_div_iff_of_pos_right (by norm_num : (0:ℚ) < 100)).mpr h
        rw [if_pos h4]
        exact ⟨_, rfl⟩

/-- The sweep inner body never throws for a recognised mode (it has no rate
check at all). -/
theorem sweepStep_no_error (c : RetireCtx) (i : Nat) (st : SweepSt)
    (hmode : c.mode = "percentOfInitial" ∨ c.mode = "percentOfCurrent" ∨ c.mode = "guardrails") :
    ∃ st', sweepStep c i st = .ok st' := by
  obtain ⟨res, hres⟩ := computeWithdrawal_recognized_ok c.mode c.baseRateDecimal
    c.initialBalance (sbamAt c i st) c.frequency st.gRate c.cfg (sytdAt c i st) (isWAt c i)
    c.inflationBasePeriodWithdraw st.inflationFactor hmode
  unfold sweepStep
  rw [hres]
  dsimp only []
  split
  · exact ⟨_, rfl⟩
  · exact ⟨_, rfl⟩

/-- The sweep inner loop never throws for a recognised mode. -/
theorem sweepLoop_no_error (c : RetireCtx)
    (hmode : c.mode = "percentOfInitial" ∨ c.mode = "percentOfCurrent" ∨ c.mode = "guardrails") :
    ∀ fuel i st, ∃ st', sweepLoop c i fuel st = .ok st' := by
  intro fuel
  induction fuel with
  | zero => intro i st; exact ⟨st, rfl⟩
  | succ fuel ih =>
    intro i st
    obtain ⟨st1, h1⟩ := sweepStep_no_error c i st hmode
    rw [sweepLoop_succ, h1]
    show ∃ st', (if st1.success = true then sweepLoop c (i+1) fuel st1 else .ok st1) = .ok st'
    by_cases hs : st1.success = true
    · obtain ⟨st', h2⟩ := ih (i+1) st1
      rw [if_pos hs]
      exact ⟨st', h2⟩
    · rw [if_neg hs]
      exact ⟨st1, rfl⟩

/-- The sweep outer loop never throws for a recognised mode. -/
theorem sweepOuter_no_error (c : RetireCtx) (d : Nat) (g : Option ℚ)
    (hmode : c.mode = "percentOfInitial" ∨ c.mode = "percentOfCurrent" ∨ c.mode = "guardrails") :
    ∀ fuel i acc, ∃ acc', sweepOuter c d g i fuel acc = .ok acc' := by
  intro fuel
  induction fuel with
  | zero => intro i acc; exact ⟨acc, rfl⟩
  | succ fuel ih =>
    intro i acc
    unfold sweepOuter
    by_cases hjan : (ptAt c i).month.m ≠ 1
    · rw [if_pos hjan]
      exact ih (i+1) acc
    · rw [if_neg hjan]
      by_cases hb : ((i + d * 12 : Nat) : Int) > (c.monthly.length : Int) - 1
      · rw [if_pos hb]
        exact ⟨acc, rfl⟩
      · rw [if_neg hb]
        obtain ⟨stF, hloop⟩ := sweepLoop_no_error c hmode (d * 12) i (sweepInitSt c g i)
        rw [hloop]
        exact ih (i+1) _

/-- For every recognised mode the sweep returns a result — whatever the
rate or guardrails bounds — because it validates nothing. -/
theorem runSweep_ok (p : SweepParams)
    (hmode : p.withdrawMode = "percentOfInitial" ∨ p.withdrawMode = "percentOfCurrent" ∨
      p.withdrawMode = "guardrails") :
    ∃ out, runRetirementSuccessByStartYear p = .ok out := by
  unfold runRetirementSuccessByStartYear
  obtain ⟨acc', houter⟩ := sweepOuter_no_error (sweepCtxOf p) p.durationYears
    (sweepGuardrails p).1 hmode p.monthly.length 0 ⟨[], [], none, none⟩
  rw [houter]
  exact ⟨_, rfl⟩

/-- Any of the four guardrails parameter errors makes the pre-loop setup of
`runRetirementMonthly` throw. -/
theorem guardrailsSetup_error_of_bad (p : RetireParams)
    (hmode : p.withdrawMode = "guardrails")
    (hbad : p.withdrawValue ≤ 0 ∨ p.guardrailsMinPct < 0 ∨ p.guardrailsMaxPct ≤ 0 ∨
      p.guardrailsMaxPct < p.guardrailsMinPct) :
    ∃ e, guardrailsSetup p = .error e := by
  unfold guardrailsSetup
  rw [if_pos hmode]
  dsimp only []
  by_cases h1 : p.withdrawValue / 100 ≤ 0
  · rw [if_pos h1]
    exact ⟨_, rfl⟩
  · rw [if_neg h1]
    by_cases h2 : p.guardrailsMinPct / 100 < 0
    · rw [if_pos h2]
      exact ⟨_, rfl⟩
    · rw [if_neg h2]
      by_cases h3 : p.guardrailsMaxPct / 100 ≤ 0
      · rw [if_pos h3]
        exact ⟨_, rfl⟩
      · rw [if_neg h3]
        by_cases h4 : p.guardrailsMinPct / 100 > p.guardrailsMaxPct / 100
        · rw [if_pos h4]
          exact ⟨_, rfl⟩
        · exfalso
          have h100 : (0:ℚ) < 100 := by norm_num
          rcases hbad with hb | hb | hb | hb
          · refine h1 ?_
            calc p.withdrawValue / 100 ≤ 0 / 100 :=
              (div_le_div_iff_of_pos_right h100).mpr hb
              _ = 0 := by norm_num
          · refine h2 ?_
            calc p.guardrailsMinPct / 100 < 0 / 100 :=
              (div_lt_div_iff_of_pos_right h100).mpr hb
              _ = 0 := by norm_num
          · refine h3 ?_
            calc p.guardrailsMaxPct / 100 ≤ 0 / 100 :=
              (div_le_div_iff_of_pos_right h100).mpr hb
              _ = 0 := by norm_num
          · exact h4 ((div_lt_div_iff_of_pos_right h100).mpr hb)

/-- A successful guardrails setup carries exactly the coerced dollar floor
of the input (`Math.max(0, d)` when finite, 0 when blank). -/
theorem guardrailsSetup_floor (p : RetireParams) (hmode : p.withdrawMode = "guardrails")
    (g : Option ℚ) (cfg : GuardrailsConfig) (h : guardrailsSetup p = .ok (g, cfg)) :
    cfg.minDollarFloor = dollarFloorOf p.guardrailsMinDollar := by
  unfold guardrailsSetup at h
  rw [if_pos hmode] at h
  dsimp only [] at h
  split at h
  · exact absurd h (by simp)
  · split at h
    · exact absurd h (by simp)
    · split at h
      · exact absurd h (by simp)
      · split at h
        · exact absurd h (by simp)
        · simp only [Except.ok.injEq, Prod.mk.injEq] at h
          rw [← h.2]

/-- Under monthly frequency, a policy tag matching no branch makes the loop
body throw (the in-loop rate check or the unknown-mode throw of
`computeWithdrawal`). -/
theorem monthStep_unknown_error (c : RetireCtx) (i : Nat) (st : LoopSt)
    (hm1 : c.mode ≠ "percentOfInitial") (hm2 : c.mode ≠ "percentOfCurrent")
    (hm3 : c.mode ≠ "guardrails") (hfreq : c.frequency = "monthly") :
    ∃ e, monthStep c i st = .error e := by
  unfold monthStep
  by_cases hr : 0 < c.baseRateDecimal
  · rw [if_pos hr]
    have hcw : computeWithdrawal c.mode c.baseRateDecimal c.initialBalance (bamAt c i st)
        c.frequency st.gRate c.cfg (ytdAt c i st) (isWAt c i)
        c.inflationBasePeriodWithdraw st.inflationFactor =
        .error (SimError.unknownMode c.mode) := by
      unfold computeWithdrawal
      rw [isWAt_monthly c i hfreq]
      rw [if_neg (by simp), if_neg hm1, if_neg hm2, if_neg hm3]
    rw [hcw]
    exact ⟨_, rfl⟩
  · rw [if_neg hr]
    exact ⟨_, rfl⟩

/-- C6 (amended): `runRetirementMonthly` detects each of the four guardrails
parameter errors (non-positive start rate, negative min rate, non-positive
max rate, min above max) before any month is simulated, and the documented
defaults hold (the annual inflation assumption is the given value when
specified and 3 when blank; the guardrails dollar floor is the coerced
input when a setup succeeds and 0 when blank). But the non-positive
withdraw-rate check sits inside the monthly loop, so a successful run with
a non-positive rate must have simulated no month at all (a zero-duration
run silently succeeds); an unrecognized policy tag is likewise inspected
only at the first withdrawal month, so under monthly frequency a successful
run with an unknown tag must also have zero duration; and
`runRetirementSuccessByStartYear` performs no configuration validation at
all — in guardrails mode it never throws, whatever the parameters. -/
theorem spec_c6_config_validation :
    (∀ p : RetireParams, p.withdrawMode = "guardrails" →
      (p.withdrawValue ≤ 0 ∨ p.guardrailsMinPct < 0 ∨ p.guardrailsMaxPct ≤ 0 ∨
        p.guardrailsMaxPct < p.guardrailsMinPct) →
      (runRetirementMonthly p).toOption = none) ∧
    (annualInflPctOf none = 3 ∧ (∀ x : ℚ, annualInflPctOf (some x) = x) ∧
      dollarFloorOf none = 0 ∧
      (∀ (p : RetireParams) (g : Option ℚ) (cfg : GuardrailsConfig),
        p.withdrawMode = "guardrails" → guardrailsSetup p = .ok (g, cfg) →
        cfg.minDollarFloor = dollarFloorOf p.guardrailsMinDollar)) ∧
    (∀ (p : RetireParams) res, p.withdrawValue ≤ 0 → runRetirementMonthly p = .ok res →
      p.durationYears = 0 ∧ res.series = []) ∧
    (∀ (p : RetireParams) res,
      p.withdrawMode ≠ "percentOfInitial" → p.withdrawMode ≠ "percentOfCurrent" →
      p.withdrawMode ≠ "guardrails" → p.withdrawFrequency = "monthly" →
      runRetirementMonthly p = .ok res → p.durationYears = 0 ∧ res.series = []) ∧
    (∀ p : SweepParams, p.withdrawMode = "guardrails" →
      (runRetirementSuccessByStartYear p).toOption.isSome = true) := by
  refine ⟨?_, ⟨rfl, fun x => rfl, rfl, ?_⟩, ?_, ?_, ?_⟩
  · intro p hmode hbad
    rw [runRetirementMonthly_toOption_none]
    unfold runRetirementMonthlyState
    cases hfind : findMonthIndex p.monthly p.startMonth with
    | none => rfl
    | some si =>
      dsimp only []
      by_cases hb : ((si + p.durationYears * 12 : Nat) : Int) > (p.monthly.length : Int) - 1
      · rw [if_pos hb]
        rfl
      · rw [if_neg hb]
        obtain ⟨e, hsetup⟩ := guardrailsSetup_error_of_bad p hmode hbad
        rw [hsetup]
        rfl
  · intro p g cfg hmode hsetup
    exact guardrailsSetup_floor p hmode g cfg hsetup
  · intro p res hv h
    obtain ⟨st', hst, rfl⟩ := run_ok_elim p res h
    obtain ⟨startIdx, gRate0, cfg, hfind, hbound, hsetup, hloop⟩ := runState_ok_elim p st' hst
    have hrate : ¬ (0 < (retireCtxOf p cfg).baseRateDecimal) := by
      show ¬ (0 < p.withdrawValue / 100)
      rw [not_lt]
      calc p.withdrawValue / 100 ≤ 0 / 100 :=
        (div_le_div_iff_of_pos_right (by norm_num : (0:ℚ) < 100)).mpr hv
        _ = 0 := by norm_num
    cases hfuel : p.durationYears * 12 with
    | zero =>
      rw [hfuel, retireLoop_zero] at hloop
      obtain rfl : initialLoopSt p startIdx gRate0 = st' := by simpa using hloop
      refine ⟨by omega, rfl⟩
    | succ n =>
      rw [hfuel, retireLoop_succ] at hloop
      have hms : monthStep (retireCtxOf p cfg) startIdx (initialLoopSt p startIdx gRate0) =
          .error SimError.withdrawRateNotPositive := by
        unfold monthStep
        rw [if_neg hrate]
      rw [hms] at hloop
      exact absurd hloop (by simp)
  · intro p res hm1 hm2 hm3 hfreq h
    obtain ⟨st', hst, rfl⟩ := run_ok_elim p res h
    obtain ⟨startIdx, gRate0, cfg, hfind, hbound, hsetup, hloop⟩ := runState_ok_elim p st' hst
    cases hfuel : p.durationYears * 12 with
    | zero =>
      rw [hfuel, retireLoop_zero] at hloop
      obtain rfl : initialLoopSt p startIdx gRate0 = st' := by simpa using hloop
      refine ⟨by omega, rfl⟩
    | succ n =>
      rw [hfuel, retireLoop_succ] at hloop
      obtain ⟨e, hms⟩ := monthStep_unknown_error (retireCtxOf p cfg) startIdx
        (initialLoopSt p startIdx gRate0) hm1 hm2 hm3 hfreq
      rw [hms] at hloop
      exact absurd hloop (by simp)
  · intro p hmode
    obtain ⟨out, hout⟩ := runSweep_ok p (Or.inr (Or.inr hmode))
    rw [hout]
    rfl

/-- Counterexample to C6 as stated: the sweep with guardrails min 6 percent
above max 3 percent does not fail at all (it happily tests one start year
and reports it a success); a zero-duration run with the unrecognized policy
tag "foo" silently succeeds; and a full one-year annual-frequency run with
that tag over February-only months simulates twelve months without any
error — the tag is never validated before, or independently of, the monthly
loop. -/
theorem spec_c6_config_validation_cex :
    (runRetirementSuccessByStartYear c6cexSweep).map
      (fun o => (o.summary.totalStartYearsTested, o.summary.successes)) = .ok (1, 1) ∧
    (runRetirementMonthly c6cexUnknown).map
      (fun r => (r.success, r.series.length)) = .ok (true, 0) ∧
    (runRetirementMonthly c6cexUnknownAnnual).map
      (fun r => (r.success, r.series.length)) = .ok (true, 12) := by
  refine ⟨by with_unfolding_all rfl, by with_unfolding_all rfl, by with_unfolding_all rfl⟩

/-- Witness for C6 (amended) at concrete configurations. -/
theorem spec_c6_config_validation_witness :
    (runRetirementMonthly c6wBad).toOption = none ∧
    annualInflPctOf (some 7) = 7 ∧
    c6wSetup.2.minDollarFloor = dollarFloorOf c6wValid.guardrailsMinDollar ∧
    (c6wZero.durationYears = 0 ∧ c6wZeroRes.series = []) ∧
    (c6cexUnknown.durationYears = 0 ∧ c6wUnkRes.series = []) ∧
    (runRetirementSuccessByStartYear c6cexSweep).toOption.isSome = true := by
  have h := spec_c6_config_validation
  refine ⟨h.1 c6wBad rfl (Or.inr (Or.inr (Or.inr (by norm_num [c6wBad])))),
    h.2.1.2.1 7,
    h.2.1.2.2.2 c6wValid c6wSetup.1 c6wSetup.2 rfl (by with_unfolding_all rfl),
    h.2.2.1 c6wZero c6wZeroRes (by norm_num [c6wZero]) (by with_unfolding_all rfl),
    h.2.2.2.1 c6cexUnknown c6wUnkRes (by decide) (by decide) (by decide) rfl
      (by with_unfolding_all rfl),
    h.2.2.2.2 c6cexSweep rfl⟩

/-- The untouched extrema seeds stay `none` exactly while no run has been
recorded. -/
theorem sweepOuter_none_inv (c : RetireCtx) (d : Nat) (g : Option ℚ) :
    ∀ fuel i acc acc',
      (acc.results = [] → acc.highestHit = none ∧ acc.lowestHit = none) →
      sweepOuter c d g i fuel acc = .ok acc' →
      (acc'.results = [] → acc'.highestHit = none ∧ acc'.lowestHit = none) := by
  intro fuel
  induction fuel with
  | zero =>
    intro i acc acc' hinv he
    obtain rfl : acc = acc' := by simpa [sweepOuter] using he
    exact hinv
  | succ fuel ih =>
    intro i acc acc' hinv he
    unfold sweepOuter at he
    split at he
    · exact ih (i+1) acc acc' hinv he
    · split at he
      · obtain rfl : acc = acc' := by simpa using he
        exact hinv
      · split at he
        · exact absurd he (by simp)
        · rename_i stF hloop
          refine ih (i+1) _ acc' ?_ he
          intro hres
          exact absurd hres (by simp)

/-- C8: when at least one start year qualifies, `successRate` is exactly
`successes/total`; when none qualifies, the rate is reported as 0 and the
four balance aggregates as `none` (the model's `null`).  In this
exact-rational model no summary field can be `NaN`. -/
theorem spec_c8_sweep_summary (p : SweepParams) (out : SweepResult)
    (h : runRetirementSuccessByStartYear p = .ok out) :
    (out.summary.totalStartYearsTested ≠ 0 →
      out.summary.successRate =
        (out.summary.successes : ℚ) / (out.summary.totalStartYearsTested : ℚ)) ∧
    (out.summary.totalStartYearsTested = 0 →
      out.summary.successRate = 0 ∧
      out.summary.averageEndingBalance = none ∧
      out.summary.medianEndingBalance = none ∧
      out.summary.highestBalanceHit = none ∧
      out.summary.lowestBalanceHit = none) := by
  unfold runRetirementSuccessByStartYear at h
  split at h
  · exact absurd h (by simp)
  · rename_i acc houter
    have hinv := sweepOuter_none_inv (sweepCtxOf p) p.durationYears (sweepGuardrails p).1
      p.monthly.length 0 ⟨[], [], none, none⟩ acc (fun _ => ⟨rfl, rfl⟩) houter
    dsimp only [] at h
    rw [Except.ok.injEq] at h
    subst h
    dsimp only []
    constructor
    · intro h0
      rw [if_pos h0]
    · intro h0
      have hres : acc.results = [] := List.length_eq_zero.mp h0
      obtain ⟨hh, hl⟩ := hinv hres
      rw [if_neg (not_not_intro h0), if_neg (not_not_intro h0), if_neg (not_not_intro h0)]
      exact ⟨rfl, rfl, rfl, hh, hl⟩

/-- Witness for C8: an empty sweep reports rate 0 and all-null aggregates;
a one-run sweep reports the exact quotient. -/
theorem spec_c8_sweep_summary_witness :
    (c8wOut.summary.successRate = 0 ∧
     c8wOut.summary.averageEndingBalance = none ∧
     c8wOut.summary.medianEndingBalance = none ∧
     c8wOut.summary.highestBalanceHit = none ∧
     c8wOut.summary.lowestBalanceHit = none) ∧
    c8wOut2.summary.successRate =
      (c8wOut2.summary.successes : ℚ) / (c8wOut2.summary.totalStartYearsTested : ℚ) := by
  have h1 := spec_c8_sweep_summary c8wEmpty c8wOut (by with_unfolding_all rfl)
  have h2 := spec_c8_sweep_summary c5wSweep c8wOut2 (by with_unfolding_all rfl)
  exact ⟨h1.2 (by with_unfolding_all rfl), h2.1 (by with_unfolding_all (exact Nat.one_ne_zero))⟩

/-- In a guardrails run one month preserves `gRate` as a `some`, appends one
snapshot reporting the new rate, and — under annual frequency — keeps the
rate unchanged whenever the month is not January. -/
theorem monthStep_annual_rate (c : RetireCtx) (i : Nat) (st st' : LoopSt)
    (hmode : c.mode = "guardrails") (hfreq : c.frequency = "annual")
    (r : ℚ) (hr : st.gRate = some r) (h : monthStep c i st = .ok st') :
    ∃ r' snap, st'.gRate = some r' ∧ st'.series = st.series ++ [snap] ∧
      snap.guardrailsRatePct = some (r' * 100) ∧ snap.month = (ptAt c i).month ∧
      ((ptAt c i).month.m ≠ 1 → r' = r) := by
  rw [monthStep_ok_iff] at h
  obtain ⟨hrate, res, hcw, rfl⟩ := h
  obtain ⟨hgr, hnr⟩ := computeWithdrawal_guardrails_rate c.mode c.baseRateDecimal
    c.initialBalance (bamAt c i st) c.frequency st.gRate c.cfg (ytdAt c i st) (isWAt c i)
    c.inflationBasePeriodWithdraw st.inflationFactor res hmode hcw
  rw [hr] at hnr
  have hw : isWAt c i = decide ((ptAt c i).month.m = 1) := by
    unfold isWAt
    rw [if_neg (by rw [hfreq]; simp)]
  have key : ∃ r', res.newRate = some r' ∧ ((ptAt c i).month.m ≠ 1 → r' = r) := by
    by_cases hjan : (ptAt c i).month.m = 1
    · rw [hw] at hnr
      by_cases hwb : decide ((ptAt c i).month.m = 1) = false
      · rw [if_pos hwb] at hnr
        exact ⟨r, hnr, fun _ => rfl⟩
      · rw [if_neg hwb] at hnr
        by_cases h8 : ytdAt c i st > 0.08
        · rw [if_pos h8] at hnr
          exact ⟨_, hnr, fun hc => absurd hjan hc⟩
        · rw [if_neg h8] at hnr
          by_cases h3 : ytdAt c i st < 0.03
          · rw [if_pos h3] at hnr
            exact ⟨_, hnr, fun hc => absurd hjan hc⟩
          · rw [if_neg h3] at hnr
            exact ⟨r, hnr, fun _ => rfl⟩
    · have hwb : isWAt c i = false := by
        rw [hw]
        simpa using hjan
      rw [if_pos hwb] at hnr
      exact ⟨r, hnr, fun _ => rfl⟩
  obtain ⟨r', hr', hjan⟩ := key
  refine ⟨r', _, ?_, settleMonth_series c st _ _ _ _ res, ?_, rfl, hjan⟩
  · rw [settleMonth_gRate, hr']
  · rw [hgr, hr']
    rfl

/-- In a guardrails/annual run the appended series segment satisfies the
off-January rate-chain predicate started at the incoming rate. -/
theorem retireLoop_annual_rate (c : RetireCtx) (hmode : c.mode = "guardrails")
    (hfreq : c.frequency = "annual") :
    ∀ fuel i st st' r, st.gRate = some r → retireLoop c i fuel st = .ok st' →
    ∃ t, st'.series = st.series ++ t ∧ ratesOffJanuaryFixed (r * 100) t = true := by
  intro fuel
  induction fuel with
  | zero =>
    intro i st st' r hr he
    obtain rfl : st = st' := by simpa [retireLoop_zero] using he
    exact ⟨[], by simp, rfl⟩
  | succ fuel ih =>
    intro i st st' r hr he
    rw [retireLoop_succ] at he
    split at he
    · exact absurd he (by simp)
    · rename_i st1 heq
      obtain ⟨r', snap, hgr', hser, hsnap, hsm, hjan⟩ :=
        monthStep_annual_rate c i st st1 hmode hfreq r hr heq
      have hcond : (if snap.month.m ≠ 1 then decide (r' * 100 = r * 100) else true) = true := by
        by_cases hj : snap.month.m ≠ 1
        · rw [if_pos hj]
          rw [hjan (by rw [← hsm]; exact hj)]
          simp
        · rw [if_neg hj]
      split at he
      · rename_i hsucc1
        obtain ⟨t', hser', hchain'⟩ := ih (i+1) st1 st' r' hgr' he
        refine ⟨snap :: t', by rw [hser', hser]; simp, ?_⟩
        rw [ratesOffJanuaryFixed, hsnap]
        simp only [hcond, hchain', Bool.and_self]
      · rename_i hsucc1
        obtain rfl : st1 = st' := by simpa using he
        refine ⟨[snap], hser, ?_⟩
        rw [ratesOffJanuaryFixed, hsnap]
        simp only [hcond, Bool.and_true]
        rfl

/-- One successful month appends exactly one snapshot, carrying the month of
the price point at the loop index. -/
theorem monthStep_series_month (c : RetireCtx) (i : Nat) (st st' : LoopSt)
    (h : monthStep c i st = .ok st') :
    ∃ snap, st'.series = st.series ++ [snap] ∧ snap.month = (ptAt c i).month := by
  rw [monthStep_ok_iff] at h
  obtain ⟨_, res, _, rfl⟩ := h
  exact ⟨_, settleMonth_series c st _ _ _ _ res, rfl⟩

/-- Unfolding the month list dropped at an in-range index. -/
theorem drop_map_month_cons (c : RetireCtx) (i : Nat) (hi : i < c.monthly.length) :
    (c.monthly.map PricePoint.month).drop i =
      (ptAt c i).month :: (c.monthly.map PricePoint.month).drop (i+1) := by
  have hi' : i < (c.monthly.map PricePoint.month).length := by simpa using hi
  rw [List.drop_eq_getElem_cons hi']
  congr 1
  rw [List.getElem_map]
  unfold ptAt
  rw [List.getD_eq_getElem?_getD, List.getElem?_eq_getElem hi]
  rfl

/-- The months of the series segment appended by the loop form a sublist of
the months of the input data from the start index on. -/
theorem retireLoop_months (c : RetireCtx) :
    ∀ fuel i st st', i + fuel ≤ c.monthly.length →
      retireLoop c i fuel st = .ok st' →
      ∃ t, st'.series = st.series ++ t ∧
        (t.map Snapshot.month).Sublist ((c.monthly.map PricePoint.month).drop i) := by
  intro fuel
  induction fuel with
  | zero =>
    intro i st st' hb he
    obtain rfl : st = st' := by simpa [retireLoop_zero] using he
    exact ⟨[], by simp, by simp⟩
  | succ fuel ih =>
    intro i st st' hb he
    have hi : i < c.monthly.length := by omega
    rw [retireLoop_succ] at he
    split at he
    · exact absurd he (by simp)
    · rename_i st1 heq
      obtain ⟨snap, hser1, hm⟩ := monthStep_series_month c i st st1 heq
      rw [drop_map_month_cons c i hi]
      split at he
      · obtain ⟨t', hser', hsub'⟩ := ih (i+1) st1 st' (by omega) he
        refine ⟨snap :: t', by rw [hser', hser1]; simp, ?_⟩
        rw [List.map_cons, hm]
        exact List.Sublist.cons₂ _ hsub'
      · obtain rfl : st1 = st' := by simpa using he
        refine ⟨[snap], hser1, ?_⟩
        rw [List.map_cons, List.map_nil, hm]
        exact List.Sublist.cons₂ _ (List.nil_sublist _)

/-- A pairwise-distinct list holds any given value at most once. -/
theorem filter_eq_length_le_one {α : Type} [DecidableEq α] (l : List α)
    (hp : l.Pairwise (fun a b => a ≠ b)) (x : α) :
    (l.filter (fun a => decide (a = x))).length ≤ 1 := by
  have hpf := hp.filter (fun a => decide (a = x))
  have hall : ∀ a ∈ l.filter (fun a => decide (a = x)), a = x := by
    intro a ha
    have h2 := (List.mem_filter.mp ha).2
    simpa using h2
  revert hpf hall
  cases hfl : l.filter (fun a => decide (a = x)) with
  | nil => intro _ _; simp
  | cons a tl =>
    cases tl with
    | nil => intro _ _; simp
    | cons b tl2 =>
      intro hpf hall
      have hab : a ≠ b := (List.pairwise_cons.mp hpf).1 b (by simp)
      have ha : a = x := hall a (by simp)
      have hb : b = x := hall b (by simp)
      exact absurd (ha.trans hb.symm) hab

/-- C10: with `isWithdrawalMonth = false`, `computeWithdrawal` returns a zero
withdrawal and leaves the guardrails rate unchanged, merely reporting it;
consequently in an annual-frequency guardrails run the reported rate can
change only at January entries of the series, and — whenever the input months
are pairwise distinct — the series holds at most one January entry per
calendar year. -/
theorem spec_c10_frame :
    (∀ (mode : String) (rate init bal : ℚ) (freq : String) (gRate : Option ℚ)
        (cfg : GuardrailsConfig) (ytd base inflF : ℚ),
      computeWithdrawal mode rate init bal freq gRate cfg ytd false base inflF =
        .ok ⟨0, gRate, gRate⟩) ∧
    (∀ (c : RetireCtx) (fuel i : Nat) (st st' : LoopSt) (r : ℚ),
      c.mode = "guardrails" → c.frequency = "annual" → st.gRate = some r →
      st.series = [] → retireLoop c i fuel st = .ok st' →
      ratesOffJanuaryFixed (r * 100) st'.series = true) ∧
    (∀ (c : RetireCtx) (fuel i : Nat) (st st' : LoopSt),
      (c.monthly.map PricePoint.month).Pairwise (fun a b => a ≠ b) →
      i + fuel ≤ c.monthly.length → st.series = [] →
      retireLoop c i fuel st = .ok st' → ∀ y : Int,
      (st'.series.filter (fun s => decide (s.month = (⟨y, 1⟩ : Month)))).length ≤ 1) := by
  refine ⟨fun mode rate init bal freq gRate cfg ytd base inflF => rfl, ?_, ?_⟩
  · intro c fuel i st st' r hmode hfreq hgr hser he
    obtain ⟨t, hser2, hchain⟩ := retireLoop_annual_rate c hmode hfreq fuel i st st' r hgr he
    rw [hser2, hser, List.nil_append]
    exact hchain
  · intro c fuel i st st' hp hb hs0 he y
    obtain ⟨t, hser, hsub⟩ := retireLoop_months c fuel i st st' hb he
    rw [hser, hs0, List.nil_append]
    have hsub2 : (t.map Snapshot.month).Sublist (c.monthly.map PricePoint.month) :=
      hsub.trans (List.drop_sublist _ _)
    have hp2 : (t.map Snapshot.month).Pairwise (fun a b => a ≠ b) := hp.sublist hsub2
    have hlen : (t.filter (fun s => decide (s.month = (⟨y, 1⟩ : Month)))).length
        = ((t.map Snapshot.month).filter (fun m => decide (m = (⟨y, 1⟩ : Month)))).length := by
      rw [List.filter_map, List.length_map]
      rfl
    rw [hlen]
    exact filter_eq_length_le_one (t.map Snapshot.month) hp2 ⟨y, 1⟩

/-- Witness for C10 on the thirteen-month guardrails/annual run. -/
theorem spec_c10_frame_witness :
    computeWithdrawal "guardrails" 0.05 100 100 "annual" (some 0.05)
        ⟨0.03, 0.06, 0.0025, 0⟩ 0 false 0 1 = .ok ⟨0, some 0.05, some 0.05⟩ ∧
    ratesOffJanuaryFixed (0.05 * 100) c10wRes.series = true ∧
    (c10wRes.series.filter (fun s => decide (s.month = (⟨2020, 1⟩ : Month)))).length ≤ 1 := by
  have h := spec_c10_frame
  have hrun : retireLoop c10wCtx 0 13 c10wSt0 = .ok c10wRes := by with_unfolding_all rfl
  exact ⟨h.1 "guardrails" 0.05 100 100 "annual" (some 0.05) ⟨0.03, 0.06, 0.0025, 0⟩ 0 0 1,
    h.2.1 c10wCtx 13 0 c10wSt0 c10wRes 0.05 rfl rfl rfl rfl hrun,
    h.2.2 c10wCtx 13 0 c10wSt0 c10wRes (by decide) (by decide) rfl hrun 2020⟩

end HistFin
